import Mathlib

/-!
Verification development for the quai-multisig-indexer event-ingestion
pipeline.  The TypeScript sources are shallowly embedded: strings carrying
hex data are modelled as `List Char` (all data is ASCII, so JavaScript
string indexing coincides with character-list indexing), JavaScript numbers
holding block heights and counters are modelled as `Int` or `Nat`, fallible
code returns `Except`/`Option`, and the relational store is an explicit
state record threaded through the event handlers.  External collaborators
(the quais library address check, the ABI argument parser, the RPC
transport, the wall clock) are oracle parameters of the definitions that
call them.
-/

namespace MultisigIndexer

/-- Character strings of the JavaScript runtime, modelled as char lists. -/
abbrev Str := List Char

/-- `Str` rendering of a Lean string literal. -/
def str (s : String) : Str := s.data

/-- Lowercasing of a JavaScript string (`String.prototype.toLowerCase`),
restricted to the ASCII data this code base handles. -/
def jsToLower (s : Str) : Str := s.map Char.toLower

-- ============================================
-- src/utils/validation.ts
-- ============================================

/-- One hexadecimal character, as accepted by the regex `[0-9a-fA-F]`. -/
def isHexChar (c : Char) : Bool :=
  c.isDigit || (('a' ≤ c) && (c ≤ 'f')) || (('A' ≤ c) && (c ≤ 'F'))

/-- `isValidAddress` from `src/utils/validation.ts`: a string of exactly 42
characters starting with `0x` that additionally passes the quais library
check `isQuaiAddress`, which is an external oracle here. -/
def isValidAddress (quaiCheck : Str → Bool) (address : Str) : Bool :=
  (address.length == 42) && (address.take 2 == str "0x") && quaiCheck address

/-- `validateAndNormalizeAddress` from `src/utils/validation.ts`: throws on
an invalid address, returns the lowercased address otherwise. -/
def validateAndNormalizeAddress (quaiCheck : Str → Bool) (address : Str)
    (fieldName : Str) : Except Str Str :=
  if isValidAddress quaiCheck address then
    .ok (jsToLower address)
  else
    .error (str "Invalid " ++ fieldName ++ str ": expected valid Quai address")

/-- `isValidBytes32` from `src/utils/validation.ts`: length exactly 66 and
matching the regex `0x` followed by 64 hex characters. -/
def isValidBytes32 (hash : Str) : Bool :=
  (hash.length == 66) && (hash.take 2 == str "0x") && (hash.drop 2).all isHexChar

/-- `validateBytes32` from `src/utils/validation.ts`: throws on an invalid
hash, returns the hash *unchanged* otherwise. -/
def validateBytes32 (hash : Str) (fieldName : Str) : Except Str Str :=
  if isValidBytes32 hash then
    .ok hash
  else
    .error (str "Invalid " ++ fieldName ++ str ": expected 0x-prefixed 64-character hex string")

-- ============================================
-- src/services/quai.ts : getBlockTimestamp and its cache
-- ============================================

/-- The block-timestamp cache: a JavaScript `Map` from block number to
timestamp, modelled as an association list in insertion order (oldest
entry first, keys unique). -/
abbrev TsCache := List (Nat × Nat)

/-- `getBlockTimestamp` from `src/services/quai.ts`.  `cap` is
`config.cache.timestampCacheSize`; `fetch` is the RPC read of the block
timestamp (after retries), `none` meaning the RPC call ultimately threw.
A cache hit returns the cached value and leaves the cache untouched; a
miss fetches, evicting the oldest entry when the cache is at capacity,
and appends the new entry at the most-recently-inserted end. -/
def getBlockTimestamp (cap : Nat) (fetch : Nat → Option Nat)
    (cache : TsCache) (blockNumber : Nat) : Option (Nat × TsCache) :=
  match cache.lookup blockNumber with
  | some cached => some (cached, cache)
  | none =>
    match fetch blockNumber with
    | none => none
    | some timestamp =>
      some (timestamp,
        (if cap ≤ cache.length then cache.tail else cache) ++ [(blockNumber, timestamp)])

/-- The cache shape the spec prescribes for a hit: the entry for `n` is
re-inserted so that `n` becomes the most-recently-used (last) entry. -/
def specHitReinserted (cache result : TsCache) (n v : Nat) : Prop :=
  result = cache.filter (fun e => e.1 ≠ n) ++ [(n, v)]

-- ============================================
-- src/indexer.ts : startup backfill decision
-- ============================================

/-- The startup decision of `Indexer.start` in `src/indexer.ts`: compute
`startBlock = max(lastIndexedBlock + 1, config.indexer.startBlock)` and
run one backfill over `[startBlock, currentBlock - confirmations]` exactly
when `startBlock < currentBlock - confirmations` (strict); otherwise fall
through to the poll loop.  Returns the backfill range when one is run. -/
def startupBackfillRange (lastIndexedBlock startBlockCfg confirmations
    currentBlock : Int) : Option (Int × Int) :=
  if max (lastIndexedBlock + 1) startBlockCfg < currentBlock - confirmations then
    some (max (lastIndexedBlock + 1) startBlockCfg, currentBlock - confirmations)
  else
    none

-- ============================================
-- Helper lemmas about association-list lookup
-- ============================================

theorem lookup_append_of_none {l : List (Nat × Nat)} {n : Nat} (r : List (Nat × Nat))
    (h : l.lookup n = none) : (l ++ r).lookup n = r.lookup n := by
  induction l with
  | nil => simp
  | cons e rest ih =>
    simp only [List.lookup, List.cons_append] at h ⊢
    cases he : (n == e.1) with
    | true => simp [he] at h
    | false =>
      simp only [he] at h ⊢
      exact ih h

theorem lookup_tail_of_none {l : List (Nat × Nat)} {n : Nat}
    (h : l.lookup n = none) : l.tail.lookup n = none := by
  cases l with
  | nil => simp
  | cons e rest =>
    simp only [List.lookup] at h
    cases he : (n == e.1) with
    | true => simp [he] at h
    | false => simpa [he] using h

-- ============================================
-- C7
-- ============================================

/-- C7: the claim holds for addresses but fails for hashes: every address
accepted at the store-gateway boundary is returned lowercased by
`validateAndNormalizeAddress`, but `validateBytes32` returns every valid
0x-prefixed 64-hex hash *unchanged*, preserving its original case. -/
theorem validate_normalizes_address_but_not_hash :
    (∀ quaiCheck address fieldName, isValidAddress quaiCheck address = true →
      validateAndNormalizeAddress quaiCheck address fieldName = .ok (jsToLower address)) ∧
    (∀ hash fieldName, isValidBytes32 hash = true →
      validateBytes32 hash fieldName = .ok hash) := by
  constructor
  · intro quaiCheck address fieldName h
    simp [validateAndNormalizeAddress, h]
  · intro hash fieldName h
    simp [validateBytes32, h]

/-- C7 counterexample: the all-uppercase hash
`0xAAAA…` (64 `A`s) is accepted by `validateBytes32` and returned with its
uppercase hex intact, so it is *not* normalised to lowercase. -/
theorem validateBytes32_preserves_case :
    validateBytes32 (str "0xAAAAAAAAAAAAAAAAAAAAAAAAAAAAAAAAAAAAAAAAAAAAAAAAAAAAAAAAAAAAAAAA") []
      = .ok (str "0xAAAAAAAAAAAAAAAAAAAAAAAAAAAAAAAAAAAAAAAAAAAAAAAAAAAAAAAAAAAAAAAA") ∧
    jsToLower (str "0xAAAAAAAAAAAAAAAAAAAAAAAAAAAAAAAAAAAAAAAAAAAAAAAAAAAAAAAAAAAAAAAA")
      ≠ str "0xAAAAAAAAAAAAAAAAAAAAAAAAAAAAAAAAAAAAAAAAAAAAAAAAAAAAAAAAAAAAAAAA" := by
  constructor
  · rfl
  · decide

/-- C7 witness: the mixed-case address `0xAbcD…` (with a quais check that
accepts it) is normalised to lowercase by `validateAndNormalizeAddress`. -/
theorem validate_normalizes_address_witness :
    isValidAddress (fun _ => true) (str "0xAbcDEF0123456789abcdef0123456789ABCDEF01") = true ∧
    validateAndNormalizeAddress (fun _ => true)
        (str "0xAbcDEF0123456789abcdef0123456789ABCDEF01") (str "walletAddress")
      = .ok (jsToLower (str "0xAbcDEF0123456789abcdef0123456789ABCDEF01")) := by
  refine ⟨by decide, ?_⟩
  exact validate_normalizes_address_but_not_hash.1 (fun _ => true)
    (str "0xAbcDEF0123456789abcdef0123456789ABCDEF01") (str "walletAddress") (by decide)

-- ============================================
-- C8
-- ============================================

/-- C8 (amended): `getBlockTimestamp` is pure over its cache — after a call
returns `(v, cache1)`, calling again for the same block returns the same
value and the same cache — and a cache hit returns the cached value with
the cache left completely unchanged (the hit does not refresh recency). -/
theorem getBlockTimestamp_pure_cache_unchanged_on_hit :
    (∀ cap fetch cache n v cache1,
      getBlockTimestamp cap fetch cache n = some (v, cache1) →
      getBlockTimestamp cap fetch cache1 n = some (v, cache1)) ∧
    (∀ cap fetch cache n v, (cache : TsCache).lookup n = some v →
      getBlockTimestamp cap fetch cache n = some (v, cache)) := by
  constructor
  · intro cap fetch cache n v cache1 h
    unfold getBlockTimestamp at h ⊢
    cases hl : cache.lookup n with
    | some cached =>
      rw [hl] at h
      simp only [Option.some.injEq, Prod.mk.injEq] at h
      obtain ⟨rfl, rfl⟩ := h
      simp [hl]
    | none =>
      rw [hl] at h
      cases hf : fetch n with
      | none => rw [hf] at h; exact absurd h (by simp)
      | some ts =>
        rw [hf] at h
        simp only [Option.some.injEq, Prod.mk.injEq] at h
        obtain ⟨rfl, rfl⟩ := h
        have hnone : ((if cap ≤ cache.length then cache.tail else cache) : TsCache).lookup n
            = none := by
          split
          · exact lookup_tail_of_none hl
          · exact hl
        have hfound : (((if cap ≤ cache.length then cache.tail else cache) ++ [(n, ts)])
            : TsCache).lookup n = some ts := by
          rw [lookup_append_of_none _ hnone]
          simp [List.lookup]
        rw [hfound]
  · intro cap fetch cache n v h
    unfold getBlockTimestamp
    simp [h]

/-- C8 witness: on the concrete cache `[(1,10),(2,20)]`, a hit on block 1
returns 10 without touching the cache, and the repeated call returns the
same value and cache. -/
theorem getBlockTimestamp_pure_witness :
    getBlockTimestamp 1000 (fun _ => none) [(1, 10), (2, 20)] 1 = some (10, [(1, 10), (2, 20)]) ∧
    getBlockTimestamp 1000 (fun _ => none) [(1, 10), (2, 20)] 1 = some (10, [(1, 10), (2, 20)]) := by
  have h1 : getBlockTimestamp 1000 (fun _ => none) [(1, 10), (2, 20)] 1
      = some (10, [(1, 10), (2, 20)]) :=
    getBlockTimestamp_pure_cache_unchanged_on_hit.2 1000 (fun _ => none)
      [(1, 10), (2, 20)] 1 10 (by decide)
  exact ⟨h1, getBlockTimestamp_pure_cache_unchanged_on_hit.1 1000 (fun _ => none)
    [(1, 10), (2, 20)] 1 10 [(1, 10), (2, 20)] h1⟩

/-- C8 counterexample: a hit on block 1 of the cache `[(1,10),(2,20)]`
leaves the cache as `[(1,10),(2,20)]`, which is not the re-inserted shape
`[(2,20),(1,10)]` the claim prescribes, so the hit entry does not become
the most-recently-used entry. -/
theorem getBlockTimestamp_hit_not_reinserted :
    getBlockTimestamp 1000 (fun _ => none) [(1, 10), (2, 20)] 1 = some (10, [(1, 10), (2, 20)]) ∧
    ¬ specHitReinserted [(1, 10), (2, 20)] [(1, 10), (2, 20)] 1 10 := by
  constructor
  · decide
  · intro h
    simp only [specHitReinserted] at h
    exact absurd h (by decide)

-- ============================================
-- C9
-- ============================================

/-- C9 (amended): at startup the indexer runs one backfill over
`[startBlock, currentBlock - confirmations]` iff
`startBlock < currentBlock - confirmations` *strictly*; when a backfill is
run its range is exactly that interval and contains at least two blocks,
and when `startBlock = currentBlock - confirmations` no backfill is run. -/
theorem startupBackfillRange_strict (lastIndexedBlock startBlockCfg confirmations
    currentBlock : Int) :
    ((startupBackfillRange lastIndexedBlock startBlockCfg confirmations currentBlock).isSome
      ↔ max (lastIndexedBlock + 1) startBlockCfg < currentBlock - confirmations) ∧
    (∀ s e, startupBackfillRange lastIndexedBlock startBlockCfg confirmations currentBlock
        = some (s, e) →
      s = max (lastIndexedBlock + 1) startBlockCfg ∧ e = currentBlock - confirmations ∧ s < e) := by
  constructor
  · unfold startupBackfillRange
    split <;> simp_all
  · intro s e h
    unfold startupBackfillRange at h
    split at h
    next hlt =>
      simp only [Option.some.injEq, Prod.mk.injEq] at h
      obtain ⟨rfl, rfl⟩ := h
      exact ⟨rfl, rfl, by omega⟩
    next => exact absurd h (by simp)

/-- C9 witness: with checkpoint 90, configured start 0, confirmation depth
2 and tip 102, the startup backfill runs over `[91, 100]`. -/
theorem startupBackfillRange_strict_witness :
    startupBackfillRange 90 0 2 102 = some (91, 100) ∧ (91 : Int) < 100 := by
  refine ⟨by decide, ?_⟩
  exact ((startupBackfillRange_strict 90 0 2 102).2 91 100 (by decide)).2.2

/-- C9 counterexample: with checkpoint 99, configured start 0, confirmation
depth 2 and tip 102 we get `startBlock = 100 = safeBlock`, yet `start`
runs no backfill — refuting the claim that a single-block backfill is run
when `startBlock = safeBlock`. -/
theorem startupBackfillRange_skips_equal_case :
    max ((99 : Int) + 1) 0 ≤ 102 - 2 ∧ startupBackfillRange 99 0 2 102 = none := by
  constructor
  · decide
  · decide

-- ============================================
-- src/indexer.ts and src/backfill.ts : checkpoint writes (C1)
-- ============================================

/-- The batching loop shared by `Indexer.backfill` (src/indexer.ts) and the
standalone `backfill` script (src/backfill.ts):
`for (let start = fromBlock; start <= toBlock; start += batchSize)` with
`end = Math.min(start + batchSize - 1, toBlock)`, calling
`supabase.updateIndexerState(end)` after each batch.  Returns the sequence
of checkpoint values written. -/
def backfillWrites (batchSize : Int) (start toBlock : Int) : List Int :=
  if h : start ≤ toBlock ∧ 0 < batchSize then
    min (start + batchSize - 1) toBlock :: backfillWrites batchSize (start + batchSize) toBlock
  else
    []
termination_by (toBlock + 1 - start).toNat
decreasing_by simp_wf; omega

/-- Checkpoint writes of one iteration of `Indexer.poll` (src/indexer.ts)
that starts with persisted checkpoint `lastIndexed` and chain tip `tip`:
if `lastIndexed < tip - confirmations`, either a backfill over
`[lastIndexed+1, safeBlock]` (when the gap exceeds `batchSize`) or a single
`updateIndexerState(safeBlock)` after indexing the range directly. -/
def pollIterationWrites (batchSize confirmations lastIndexed tip : Int) : List Int :=
  if lastIndexed < tip - confirmations then
    if tip - confirmations - lastIndexed > batchSize then
      backfillWrites batchSize (lastIndexed + 1) (tip - confirmations)
    else
      [tip - confirmations]
  else
    []

/-- Checkpoint writes of the startup backfill in `Indexer.start`
(src/indexer.ts): a backfill from `max(lastIndexed+1, configuredStart)`
up to `tip - confirmations` when that range is non-trivial. -/
def startupWrites (batchSize confirmations startBlockCfg lastIndexed tip : Int) : List Int :=
  if max (lastIndexed + 1) startBlockCfg < tip - confirmations then
    backfillWrites batchSize (max (lastIndexed + 1) startBlockCfg) (tip - confirmations)
  else
    []

/-- Checkpoint writes of the standalone backfill entrypoint
(src/backfill.ts): the range `[BACKFILL_FROM, BACKFILL_TO]` comes from the
environment and is batched regardless of the persisted checkpoint. -/
def standaloneBackfillWrites (batchSize fromBlock toBlock : Int) : List Int :=
  backfillWrites batchSize fromBlock toBlock

/-- The monotonicity property of claim C1 for a write sequence starting
from checkpoint `cp`: no write is below the checkpoint value preceding it. -/
def checkpointMonotone (cp : Int) (writes : List Int) : Prop :=
  List.Chain' (· ≤ ·) (cp :: writes)

theorem backfillWrites_chain (b : Int) :
    ∀ (n : Nat) (start toBlock : Int), (toBlock + 1 - start).toNat = n →
      ∀ a, a ≤ start - 1 → List.Chain' (· ≤ ·) (a :: backfillWrites b start toBlock) := by
  intro n
  induction n using Nat.strong_induction_on with
  | _ n ih =>
    intro start toBlock hn a ha
    rw [backfillWrites]
    split
    next h =>
      rw [List.chain'_cons]
      refine ⟨by omega, ?_⟩
      exact ih (toBlock + 1 - (start + b)).toNat (by omega) (start + b) toBlock rfl
        (min (start + b - 1) toBlock) (by omega)
    next => simp

-- ============================================
-- C1
-- ============================================

/-- C1 (amended): for the in-process pipeline — the startup backfill and
every poll-loop iteration — the sequence of checkpoint writes starting from
the persisted checkpoint is monotonically non-decreasing; the standalone
backfill entrypoint, however, is excluded because its range is configured
independently of the checkpoint. -/
theorem inProcess_checkpoint_monotone (batchSize confirmations startBlockCfg
    lastIndexed tip : Int) :
    checkpointMonotone lastIndexed
      (startupWrites batchSize confirmations startBlockCfg lastIndexed tip) ∧
    checkpointMonotone lastIndexed
      (pollIterationWrites batchSize confirmations lastIndexed tip) := by
  constructor
  · unfold checkpointMonotone startupWrites
    split
    next h =>
      exact backfillWrites_chain batchSize _ (max (lastIndexed + 1) startBlockCfg)
        (tip - confirmations) rfl lastIndexed (by omega)
    next h => simp
  · unfold checkpointMonotone pollIterationWrites
    split
    next h =>
      split
      next hgap =>
        exact backfillWrites_chain batchSize _ (lastIndexed + 1)
          (tip - confirmations) rfl lastIndexed (by omega)
      next hgap =>
        rw [List.chain'_cons]
        exact ⟨by omega, by simp⟩
    next h => simp

/-- C1 witness: with checkpoint 90, batch size 3, confirmation depth 2 and
tip 100, both the startup backfill and a poll iteration write monotonically
non-decreasing checkpoints. -/
theorem inProcess_checkpoint_monotone_witness :
    checkpointMonotone 90 (startupWrites 3 2 0 90 100) ∧
    checkpointMonotone 90 (pollIterationWrites 3 2 90 100) :=
  inProcess_checkpoint_monotone 3 2 0 90 100

/-- C1 counterexample: with the persisted checkpoint at 100, running the
standalone backfill entrypoint with `BACKFILL_FROM=0`, `BACKFILL_TO=50`
and batch size 1000 writes checkpoint 50, strictly below the current
checkpoint value — the claimed monotonicity fails for that entrypoint. -/
theorem standalone_backfill_regresses_checkpoint :
    standaloneBackfillWrites 1000 0 50 = [50] ∧
    ¬ checkpointMonotone 100 (standaloneBackfillWrites 1000 0 50) := by
  have h1 : backfillWrites 1000 1000 50 = [] := by
    rw [backfillWrites]
    norm_num
  have h0 : standaloneBackfillWrites 1000 0 50 = [50] := by
    unfold standaloneBackfillWrites
    rw [backfillWrites, dif_pos (by norm_num : (0 : Int) ≤ 50 ∧ (0 : Int) < 1000)]
    norm_num [h1]
  refine ⟨h0, ?_⟩
  rw [checkpointMonotone, h0, List.chain'_cons]
  norm_num

-- ============================================
-- src/indexer.ts : indexBlockRange merge and sort (C2)
-- ============================================

/-- The per-log fields the sort comparator of `indexBlockRange` reads. -/
structure RawLog where
  blockNumber : Int
  logIndex : Int
deriving DecidableEq, Repr

/-- An entry of `allLogs` in `indexBlockRange`: a log paired with its
source priority. -/
structure PrioLog where
  blockNumber : Int
  logIndex : Int
  priority : Int
deriving DecidableEq, Repr

/-- The fan-in of `indexBlockRange` (src/indexer.ts): factory logs are
pushed with priority 0, tracked-wallet logs with priority 1, module logs
with priority 2, in that order. -/
def mergeSources (factoryLogs walletLogs moduleLogs : List RawLog) : List PrioLog :=
  factoryLogs.map (fun l => ⟨l.blockNumber, l.logIndex, 0⟩) ++
    walletLogs.map (fun l => ⟨l.blockNumber, l.logIndex, 1⟩) ++
    moduleLogs.map (fun l => ⟨l.blockNumber, l.logIndex, 2⟩)

/-- The comparator passed to `allLogs.sort` in `indexBlockRange`
(src/indexer.ts lines 172-180): block number first, then priority, then
log index. -/
def logCompare (a b : PrioLog) : Int :=
  if a.blockNumber ≠ b.blockNumber then a.blockNumber - b.blockNumber
  else if a.priority ≠ b.priority then a.priority - b.priority
  else a.logIndex - b.logIndex

/-- The ordering induced by the comparator: `a` may precede `b` exactly
when the comparator is non-positive. -/
def logLE (a b : PrioLog) : Prop := logCompare a b ≤ 0

instance : DecidableRel logLE := fun a b =>
  inferInstanceAs (Decidable (logCompare a b ≤ 0))

theorem logLE_iff (a b : PrioLog) :
    logLE a b ↔ (a.blockNumber < b.blockNumber ∨
      (a.blockNumber = b.blockNumber ∧ (a.priority < b.priority ∨
        (a.priority = b.priority ∧ a.logIndex ≤ b.logIndex)))) := by
  unfold logLE logCompare
  split_ifs <;> omega

instance : IsTotal PrioLog logLE :=
  ⟨fun a b => by rw [logLE_iff, logLE_iff]; omega⟩

instance : IsTrans PrioLog logLE :=
  ⟨fun a b c hab hbc => by
    rw [logLE_iff] at hab hbc ⊢
    omega⟩

/-- The sort of the merged list in `indexBlockRange`: JavaScript
`Array.prototype.sort` with a consistent comparator, modelled as a stable
sort under the comparator-induced order. -/
def sortLogs (logs : List PrioLog) : List PrioLog := List.insertionSort logLE logs

-- ============================================
-- C2
-- ============================================

/-- C2: within one `indexBlockRange` batch the merged list, after sorting,
is a permutation of the fan-in that is pairwise ordered by
(blockNumber asc, priority asc, logIndex asc); consequently, for two
entries with the same block number, a tracked-wallet entry (priority 1)
never precedes a factory entry (priority 0) — factory events are
dispatched first. -/
theorem indexBlockRange_sorted_factory_first (factoryLogs walletLogs moduleLogs
    : List RawLog) :
    (sortLogs (mergeSources factoryLogs walletLogs moduleLogs)).Pairwise
      (fun a b => a.blockNumber < b.blockNumber ∨
        (a.blockNumber = b.blockNumber ∧ (a.priority < b.priority ∨
          (a.priority = b.priority ∧ a.logIndex ≤ b.logIndex)))) ∧
    (sortLogs (mergeSources factoryLogs walletLogs moduleLogs)).Pairwise
      (fun a b => a.blockNumber = b.blockNumber →
        ¬(a.priority = 1 ∧ b.priority = 0)) ∧
    (sortLogs (mergeSources factoryLogs walletLogs moduleLogs)).Perm
      (mergeSources factoryLogs walletLogs moduleLogs) := by
  have hs : (sortLogs (mergeSources factoryLogs walletLogs moduleLogs)).Pairwise logLE :=
    List.sorted_insertionSort logLE (mergeSources factoryLogs walletLogs moduleLogs)
  refine ⟨hs.imp ?_, hs.imp ?_, List.perm_insertionSort logLE _⟩
  · intro a b hab
    exact (logLE_iff a b).mp hab
  · intro a b hab
    rw [logLE_iff] at hab
    omega

/-- C2 witness: a factory log and a wallet log in the same block (the
wallet log fanned in first-by-source but with a lower log index) sort with
the factory entry first. -/
theorem indexBlockRange_sorted_factory_first_witness :
    sortLogs (mergeSources [⟨5, 3⟩] [⟨5, 1⟩] []) = [⟨5, 3, 0⟩, ⟨5, 1, 1⟩] ∧
    (sortLogs (mergeSources [⟨5, 3⟩] [⟨5, 1⟩] [])).Pairwise
      (fun a b => a.blockNumber = b.blockNumber →
        ¬(a.priority = 1 ∧ b.priority = 0)) := by
  exact ⟨by decide, (indexBlockRange_sorted_factory_first [⟨5, 3⟩] [⟨5, 1⟩] []).2.1⟩

-- ============================================
-- src/services/supabase.ts : store-gateway write paths (C4)
-- ============================================

/-- Columns written by `upsertTransaction` (src/services/supabase.ts lines
306-324): the keys of the upserted record, including `confirmation_count`
passed through from the caller. -/
def upsertTransactionColumns : List String :=
  ["wallet_address", "tx_hash", "to_address", "value", "data", "transaction_type",
   "decoded_params", "status", "confirmation_count", "submitted_by",
   "submitted_at_block", "submitted_at_tx", "executed_at_block", "executed_at_tx",
   "cancelled_at_block", "cancelled_at_tx"]

/-- Columns written by `updateTransactionStatus`: `status` plus the
executed- or cancelled- block/tx pair depending on the status. -/
def updateTransactionStatusColumns (statusIsExecuted : Bool) : List String :=
  if statusIsExecuted then ["status", "executed_at_block", "executed_at_tx"]
  else ["status", "cancelled_at_block", "cancelled_at_tx"]

/-- Columns written by `addConfirmation` on the `confirmations` child
table. -/
def addConfirmationColumns : List String :=
  ["wallet_address", "tx_hash", "owner_address", "confirmed_at_block",
   "confirmed_at_tx", "is_active"]

/-- Columns written by `revokeConfirmation` on the `confirmations` child
table. -/
def revokeConfirmationColumns : List String :=
  ["is_active", "revoked_at_block", "revoked_at_tx"]

/-- Columns written by `upsertRecovery` (src/services/supabase.ts lines
476-495), including `approval_count` passed through from the caller. -/
def upsertRecoveryColumns : List String :=
  ["wallet_address", "recovery_hash", "new_owners", "new_threshold",
   "initiator_address", "approval_count", "required_threshold", "execution_time",
   "status", "initiated_at_block", "initiated_at_tx", "executed_at_block",
   "executed_at_tx", "cancelled_at_block", "cancelled_at_tx"]

/-- Columns written by `updateRecoveryStatus`. -/
def updateRecoveryStatusColumns (statusIsExecuted : Bool) : List String :=
  if statusIsExecuted then ["status", "executed_at_block", "executed_at_tx"]
  else ["status", "cancelled_at_block", "cancelled_at_tx"]

/-- Columns written by `addRecoveryApproval` on the
`social_recovery_approvals` child table. -/
def addRecoveryApprovalColumns : List String :=
  ["wallet_address", "recovery_hash", "guardian_address", "approved_at_block",
   "approved_at_tx", "is_active"]

/-- Columns written by `revokeRecoveryApproval` on the
`social_recovery_approvals` child table. -/
def revokeRecoveryApprovalColumns : List String :=
  ["is_active", "revoked_at_block", "revoked_at_tx"]

-- ============================================
-- C4
-- ============================================

/-- C4 counterexample: the gateway *does* write the derived counter columns
on a write path — `upsertTransaction` writes `confirmation_count` and
`upsertRecovery` writes `approval_count` (both pass the caller-supplied
value through to the upserted record). -/
theorem gateway_writes_counter_columns :
    "confirmation_count" ∈ upsertTransactionColumns ∧
    "approval_count" ∈ upsertRecoveryColumns := by
  constructor <;> simp [upsertTransactionColumns, upsertRecoveryColumns]

/-- C4 (amended): the gateway never computes the derived counters — they
are maintained by store-side triggers on the child tables — and outside the
two initial-row upserts (`upsertTransaction`, `upsertRecovery`, which pass
the caller-supplied value through) no gateway write path touches
`confirmation_count` or `approval_count`: neither the status updates nor
any write to the child tables themselves. -/
theorem counter_columns_only_in_initial_upserts (statusIsExecuted : Bool) :
    "confirmation_count" ∉ updateTransactionStatusColumns statusIsExecuted ∧
    "confirmation_count" ∉ addConfirmationColumns ∧
    "confirmation_count" ∉ revokeConfirmationColumns ∧
    "approval_count" ∉ updateRecoveryStatusColumns statusIsExecuted ∧
    "approval_count" ∉ addRecoveryApprovalColumns ∧
    "approval_count" ∉ revokeRecoveryApprovalColumns := by
  cases statusIsExecuted <;>
    refine ⟨?_, ?_, ?_, ?_, ?_, ?_⟩ <;>
      simp [updateTransactionStatusColumns, addConfirmationColumns,
        revokeConfirmationColumns, updateRecoveryStatusColumns,
        addRecoveryApprovalColumns, revokeRecoveryApprovalColumns]

/-- C4 witness: the amended claim at the `executed` status. -/
theorem counter_columns_only_in_initial_upserts_witness :
    "confirmation_count" ∉ updateTransactionStatusColumns true ∧
    "confirmation_count" ∉ addConfirmationColumns ∧
    "confirmation_count" ∉ revokeConfirmationColumns ∧
    "approval_count" ∉ updateRecoveryStatusColumns true ∧
    "approval_count" ∉ addRecoveryApprovalColumns ∧
    "approval_count" ∉ revokeRecoveryApprovalColumns :=
  counter_columns_only_in_initial_upserts true

-- ============================================
-- src/backfill.ts : decodeAddressArray (C5)
-- ============================================

/-- Numeric value of a hex character (only meaningful on `isHexChar`). -/
def hexVal (c : Char) : Nat :=
  if c.isDigit then c.toNat - '0'.toNat
  else if ('a' ≤ c) && (c ≤ 'f') then c.toNat - 'a'.toNat + 10
  else c.toNat - 'A'.toNat + 10

/-- Accumulate a run of hex digits into a number (radix-16 fold). -/
def parseHexNat (ds : List Char) : Nat :=
  ds.foldl (fun acc c => 16 * acc + hexVal c) 0

/-- Skip the optional `0x`/`0X` marker accepted by `parseInt(s, 16)`. -/
def stripHexMarker (t : Str) : Str :=
  match t with
  | c0 :: c1 :: r => if c0 = '0' ∧ (c1 = 'x' ∨ c1 = 'X') then r else t
  | _ => t

/-- Core of JavaScript `parseInt(s, 16)` past the optional sign: skip an
optional `0x`/`0X`, then read the longest hex-digit run; an empty run is
`NaN` (here `none`). -/
def jsParseHexCore (t : Str) : Option Nat :=
  if ((stripHexMarker t).takeWhile isHexChar).isEmpty then none
  else some (parseHexNat ((stripHexMarker t).takeWhile isHexChar))

/-- JavaScript `parseInt(s, 16)` as used on slices of hex payloads: an
optional sign, an optional `0x` marker, then the longest hex-digit run;
`none` models `NaN`.  (Leading-whitespace skipping is omitted — the inputs
here are slices of hex payloads.) -/
def jsParseIntHex (s : Str) : Option Int :=
  match s with
  | [] => none
  | c :: rest =>
    if c = '-' then (jsParseHexCore rest).map (fun n => -(n : Int))
    else if c = '+' then (jsParseHexCore rest).map (fun n => (n : Int))
    else (jsParseHexCore (c :: rest)).map (fun n => (n : Int))

/-- `decodeAddressArray` from `src/backfill.ts` lines 343-390, on the
character-list model of the ABI-encoded hex response: reject null/empty
data, a missing `0x` prefix, fewer than 130 characters, an unparseable /
negative / over-1000 declared length, and data shorter than
`128 + 64*length` characters past the prefix; then cut each 64-character
slot after offset and length words and keep its last 40 characters
(`slice(-40)`, here `drop 24` of the full slot) behind a fresh `0x`. -/
def decodeAddressArray (hexData : Str) : Except Str (List Str) :=
  if hexData.isEmpty then
    .error (str "Invalid ABI-encoded address array: data is null or not a string")
  else if hexData.take 2 ≠ str "0x" then
    .error (str "Invalid ABI-encoded address array: missing 0x prefix")
  else if hexData.length < 130 then
    .error (str "Invalid ABI-encoded address array: data too short")
  else
    match jsParseIntHex (((hexData.drop 2).drop 64).take 64) with
    | none => .error (str "Invalid ABI-encoded address array: unreasonable length")
    | some len =>
      if len < 0 ∨ 1000 < len then
        .error (str "Invalid ABI-encoded address array: unreasonable length")
      else if len = 0 then
        .ok []
      else if (hexData.drop 2).length < 128 + 64 * len.toNat then
        .error (str "Invalid ABI-encoded address array: data shorter than expected")
      else
        .ok ((List.range len.toNat).map (fun i =>
          str "0x" ++ (((hexData.drop 2).drop (128 + i * 64)).take 64).drop 24))

/-- Hex character of a digit value below 16 (lowercase, as produced by the
chain RPC). -/
def hexDigitChar (n : Nat) : Char :=
  if n < 10 then Char.ofNat ('0'.toNat + n) else Char.ofNat ('a'.toNat + n - 10)

/-- Big-endian hex digits of a number (no leading zeros, `0 ↦ "0"`). -/
def natToHex (n : Nat) : Str :=
  if h : n < 16 then [hexDigitChar n]
  else natToHex (n / 16) ++ [hexDigitChar (n % 16)]
decreasing_by exact Nat.div_lt_self (by omega) (by norm_num)

/-- A 32-byte ABI word: the hex digits of `n` left-padded with zeros to 64
characters. -/
def abiWord (n : Nat) : Str :=
  List.replicate (64 - (natToHex n).length) '0' ++ natToHex n

/-- The standard ABI encoding of a dynamic `address[]` return value, as the
claim describes it: a 32-byte offset word (0x20), a 32-byte length word,
then one 32-byte slot per address with the 20-byte address right-aligned
(zero-padded on the left).  This is the specification-side encoder used to
state the round-trip property; the repository only contains the decoder. -/
def encodeAddressArray (addresses : List Str) : Str :=
  str "0x" ++ abiWord 32 ++ abiWord addresses.length ++
    addresses.flatMap (fun a => List.replicate 24 '0' ++ a.drop 2)

-- ============================================
-- Digit and parsing lemmas for C5
-- ============================================

theorem hexVal_hexDigitChar {m : Nat} (h : m < 16) : hexVal (hexDigitChar m) = m := by
  interval_cases m <;> decide

theorem isHexChar_hexDigitChar {m : Nat} (h : m < 16) : isHexChar (hexDigitChar m) = true := by
  interval_cases m <;> decide

theorem natToHex_all_hex (n : Nat) : (natToHex n).all isHexChar = true := by
  induction n using Nat.strong_induction_on with
  | _ n ih =>
    rw [natToHex]
    split
    next h => simp [isHexChar_hexDigitChar h]
    next h =>
      rw [List.all_append]
      have h1 := ih (n / 16) (Nat.div_lt_self (by omega) (by norm_num))
      have h2 := isHexChar_hexDigitChar (Nat.mod_lt n (by norm_num : (0:Nat) < 16))
      simp [h1, h2]

theorem natToHex_ne_nil (n : Nat) : natToHex n ≠ [] := by
  rw [natToHex]
  split <;> simp

theorem parseHexNat_append (a b : List Char) :
    parseHexNat (a ++ b) = b.foldl (fun acc c => 16 * acc + hexVal c) (parseHexNat a) := by
  unfold parseHexNat
  rw [List.foldl_append]

theorem parseHexNat_natToHex (n : Nat) : parseHexNat (natToHex n) = n := by
  induction n using Nat.strong_induction_on with
  | _ n ih =>
    rw [natToHex]
    split
    next h => simp [parseHexNat, List.foldl, hexVal_hexDigitChar h]
    next h =>
      rw [parseHexNat_append, ih (n / 16) (Nat.div_lt_self (by omega) (by norm_num))]
      simp only [List.foldl_cons, List.foldl_nil]
      rw [hexVal_hexDigitChar (Nat.mod_lt n (by norm_num : (0:Nat) < 16))]
      omega

theorem parseHexNat_replicate_zero_append (k : Nat) (b : List Char) :
    parseHexNat (List.replicate k '0' ++ b)
      = b.foldl (fun acc c => 16 * acc + hexVal c) 0 := by
  rw [parseHexNat_append]
  congr 1
  induction k with
  | zero => rfl
  | succ k ihk =>
    rw [List.replicate_succ]
    simpa [parseHexNat, hexVal] using ihk

theorem natToHex_length_le : ∀ (k n : Nat), 0 < k → n < 16 ^ k → (natToHex n).length ≤ k := by
  intro k
  induction k with
  | zero => omega
  | succ k ihk =>
    intro n hk hn
    rw [natToHex]
    split
    next h => simp
    next h =>
      have hk0 : 0 < k := by
        by_contra hc
        have : k = 0 := by omega
        subst this
        simp [pow_succ] at hn
        omega
      have hdiv : n / 16 < 16 ^ k := by
        rw [Nat.div_lt_iff_lt_mul (by norm_num : (0:Nat) < 16)]
        calc n < 16 ^ (k + 1) := hn
        _ = 16 ^ k * 16 := by ring
      have := ihk (n / 16) hk0 hdiv
      simp only [List.length_append, List.length_cons, List.length_nil]
      omega

/-- The padded ABI word of a (reasonably small) number is 64 characters. -/
theorem abiWord_length {n : Nat} (h : n < 16 ^ 64) : (abiWord n).length = 64 := by
  unfold abiWord
  have hle := natToHex_length_le 64 n (by norm_num) h
  simp only [List.length_append, List.length_replicate]
  omega

/-- Parsing the ABI word of a number below `16^62` recovers it (the word
starts with at least two zero characters, so the `0x`-marker branch of
`parseInt` is not taken). -/
theorem jsParseIntHex_abiWord {n : Nat} (h : n < 16 ^ 62) :
    jsParseIntHex (abiWord n) = some (n : Int) := by
  have hlen := natToHex_length_le 62 n (by norm_num) h
  have hall : ∀ c ∈ List.replicate (64 - (natToHex n).length) '0' ++ natToHex n,
      isHexChar c = true := by
    intro c hc
    rcases List.mem_append.mp hc with h1 | h2
    · rw [List.eq_of_mem_replicate h1]; decide
    · exact List.all_eq_true.mp (natToHex_all_hex n) c h2
  -- the word starts with at least two '0' characters
  obtain ⟨k, hk⟩ : ∃ k, 64 - (natToHex n).length = k + 2 :=
    ⟨64 - (natToHex n).length - 2, by omega⟩
  have hshape : abiWord n = '0' :: '0' :: (List.replicate k '0' ++ natToHex n) := by
    unfold abiWord
    rw [hk]
    rfl
  rw [hshape]
  rw [hk] at hall
  have hstrip : stripHexMarker ('0' :: '0' :: (List.replicate k '0' ++ natToHex n))
      = '0' :: '0' :: (List.replicate k '0' ++ natToHex n) := by
    unfold stripHexMarker
    simp
  have htw : (('0' :: '0' :: (List.replicate k '0' ++ natToHex n)).takeWhile isHexChar)
      = '0' :: '0' :: (List.replicate k '0' ++ natToHex n) := by
    rw [List.takeWhile_eq_self_iff]
    intro c hc
    refine hall c ?_
    simpa [List.replicate_succ] using hc
  have hval : parseHexNat ('0' :: '0' :: (List.replicate k '0' ++ natToHex n)) = n := by
    have h2 : ('0' :: '0' :: (List.replicate k '0' ++ natToHex n))
        = List.replicate (k + 2) '0' ++ natToHex n := by
      simp [List.replicate_succ]
    rw [h2, parseHexNat_replicate_zero_append]
    exact parseHexNat_natToHex n
  unfold jsParseIntHex
  simp only []
  rw [if_neg (by decide : ¬('0' : Char) = '-'), if_neg (by decide : ¬('0' : Char) = '+')]
  unfold jsParseHexCore
  rw [hstrip, htw]
  simp [hval]

theorem flatMap_const_length (f : Str → Str) :
    ∀ xs : List Str, (∀ a ∈ xs, (f a).length = 64) →
      (xs.flatMap f).length = 64 * xs.length := by
  intro xs
  induction xs with
  | nil => intro _; simp
  | cons a t ih =>
    intro h
    rw [List.flatMap_cons, List.length_append, h a (by simp),
      ih (fun b hb => h b (by simp [hb]))]
    simp [Nat.mul_succ, List.length_cons]
    ring

theorem flatMap_drop_take (f : Str → Str) :
    ∀ (xs : List Str) (i : Nat) (h : i < xs.length),
      (∀ a ∈ xs, (f a).length = 64) →
      ((xs.flatMap f).drop (64 * i)).take 64 = f (xs.get ⟨i, h⟩) := by
  intro xs
  induction xs with
  | nil => intro i h; exact absurd h (by simp)
  | cons a t ih =>
    intro i h hlen
    have hfa : (f a).length = 64 := hlen a (by simp)
    cases i with
    | zero =>
      simp only [List.flatMap_cons, Nat.mul_zero, List.drop_zero]
      rw [← hfa, List.take_left]
      rfl
    | succ i =>
      simp only [List.flatMap_cons]
      have h1 : 64 * (i + 1) = (f a).length + 64 * i := by omega
      rw [h1, ← List.drop_drop, List.drop_left]
      rw [ih i (by simpa using h) (fun b hb => hlen b (by simp [hb]))]
      rfl

-- ============================================
-- C5
-- ============================================

/-- C5: `decodeAddressArray` inverts the standard ABI encoding of any list
of at most 1000 well-formed (`0x` + 40-character) addresses, including the
empty list; and it fails with a typed error on any input that lacks the
`0x` prefix, declares a length above 1000, or carries fewer than
`128 + 64*length` characters after the prefix. -/
theorem decodeAddressArray_roundtrip_and_errors :
    (∀ xs : List Str, xs.length ≤ 1000 →
      (∀ a ∈ xs, a.take 2 = str "0x" ∧ a.length = 42) →
      decodeAddressArray (encodeAddressArray xs) = .ok xs) ∧
    (∀ hexData : Str, hexData.take 2 ≠ str "0x" →
      ∃ e, decodeAddressArray hexData = .error e) ∧
    (∀ (hexData : Str) (len : Int), 130 ≤ hexData.length →
      jsParseIntHex (((hexData.drop 2).drop 64).take 64) = some len →
      1000 < len →
      ∃ e, decodeAddressArray hexData = .error e) ∧
    (∀ (hexData : Str) (len : Int), 130 ≤ hexData.length →
      jsParseIntHex (((hexData.drop 2).drop 64).take 64) = some len →
      0 < len → len ≤ 1000 →
      (hexData.drop 2).length < 128 + 64 * len.toNat →
      ∃ e, decodeAddressArray hexData = .error e) := by
  refine ⟨?roundtrip, ?noPre, ?tooLong, ?truncated⟩
  case noPre =>
    intro hexData hpre
    unfold decodeAddressArray
    by_cases hemp : hexData.isEmpty = true
    · rw [if_pos hemp]
      exact ⟨_, rfl⟩
    · rw [if_neg hemp, if_pos hpre]
      exact ⟨_, rfl⟩
  case tooLong =>
    intro hexData len h130 hparse hbig
    unfold decodeAddressArray
    have hemp : ¬ hexData.isEmpty = true := by
      rw [List.isEmpty_iff]
      intro h
      rw [h] at h130
      simp at h130
    rw [if_neg hemp]
    by_cases hpre : hexData.take 2 ≠ str "0x"
    · rw [if_pos hpre]; exact ⟨_, rfl⟩
    · rw [if_neg hpre, if_neg (by omega : ¬ hexData.length < 130)]
      simp only [hparse]
      rw [if_pos (by omega : len < 0 ∨ 1000 < len)]
      exact ⟨_, rfl⟩
  case truncated =>
    intro hexData len h130 hparse hpos hle hshort
    unfold decodeAddressArray
    have hemp : ¬ hexData.isEmpty = true := by
      rw [List.isEmpty_iff]
      intro h
      rw [h] at h130
      simp at h130
    rw [if_neg hemp]
    by_cases hpre : hexData.take 2 ≠ str "0x"
    · rw [if_pos hpre]; exact ⟨_, rfl⟩
    · rw [if_neg hpre, if_neg (by omega : ¬ hexData.length < 130)]
      simp only [hparse]
      rw [if_neg (by omega : ¬(len < 0 ∨ 1000 < len)),
        if_neg (by omega : ¬ len = 0), if_pos hshort]
      exact ⟨_, rfl⟩
  case roundtrip =>
    intro xs hn hx
    have hW32 : (abiWord 32).length = 64 := abiWord_length (by norm_num)
    have hWn : (abiWord xs.length).length = 64 :=
      abiWord_length (lt_of_le_of_lt hn (by norm_num))
    have hfa : ∀ a ∈ xs, ((fun a => List.replicate 24 '0' ++ a.drop 2) a).length = 64 := by
      intro a ha
      have h42 := (hx a ha).2
      simp only [List.length_append, List.length_replicate, List.length_drop]
      omega
    have hslots := flatMap_const_length (fun a => List.replicate 24 '0' ++ a.drop 2) xs hfa
    have henc : encodeAddressArray xs = '0' :: 'x' ::
        (abiWord 32 ++ (abiWord xs.length ++
          xs.flatMap (fun a => List.replicate 24 '0' ++ a.drop 2))) := by
      simp [encodeAddressArray, str, List.append_assoc]
    rw [henc]
    unfold decodeAddressArray
    rw [if_neg (by simp : ¬(('0' :: 'x' :: (abiWord 32 ++ (abiWord xs.length ++
        xs.flatMap (fun a => List.replicate 24 '0' ++ a.drop 2)))).isEmpty = true))]
    rw [if_neg (by
      simp only [List.take, ne_eq, not_not]
      rfl)]
    have hLen : ('0' :: 'x' :: (abiWord 32 ++ (abiWord xs.length ++
        xs.flatMap (fun a => List.replicate 24 '0' ++ a.drop 2)))).length
        = 2 + (64 + (64 + 64 * xs.length)) := by
      simp only [List.length_cons, List.length_append, hW32, hWn, hslots]
      omega
    rw [if_neg (by omega : ¬ ('0' :: 'x' :: (abiWord 32 ++ (abiWord xs.length ++
        xs.flatMap (fun a => List.replicate 24 '0' ++ a.drop 2)))).length < 130)]
    have hdrop2 : (('0' :: 'x' :: (abiWord 32 ++ (abiWord xs.length ++
        xs.flatMap (fun a => List.replicate 24 '0' ++ a.drop 2)))) : Str).drop 2
        = abiWord 32 ++ (abiWord xs.length ++
          xs.flatMap (fun a => List.replicate 24 '0' ++ a.drop 2)) := rfl
    simp only [hdrop2]
    have h64 : (abiWord 32 ++ (abiWord xs.length ++
        xs.flatMap (fun a => List.replicate 24 '0' ++ a.drop 2))).drop 64
        = abiWord xs.length ++ xs.flatMap (fun a => List.replicate 24 '0' ++ a.drop 2) := by
      conv_lhs => rw [← hW32]
      exact List.drop_left _ _
    have hww : ((abiWord 32 ++ (abiWord xs.length ++
        xs.flatMap (fun a => List.replicate 24 '0' ++ a.drop 2))).drop 64).take 64
        = abiWord xs.length := by
      rw [h64]
      conv_lhs => rw [← hWn]
      exact List.take_left _ _
    simp only [hww, jsParseIntHex_abiWord (lt_of_le_of_lt hn (by norm_num : (1000:Nat) < 16 ^ 62))]
    rw [if_neg (by
      omega : ¬ ((xs.length : Int) < 0 ∨ 1000 < (xs.length : Int)))]
    by_cases h0 : xs.length = 0
    · rw [if_pos (by exact_mod_cast h0)]
      rw [List.length_eq_zero.mp h0]
    · rw [if_neg (by exact_mod_cast h0)]
      have htoNat : ((xs.length : Int)).toNat = xs.length := Int.toNat_natCast xs.length
      have hRlen : (abiWord 32 ++ (abiWord xs.length ++
          xs.flatMap (fun a => List.replicate 24 '0' ++ a.drop 2))).length
          = 64 + (64 + 64 * xs.length) := by
        simp only [List.length_append, hW32, hWn, hslots]
      rw [if_neg (by rw [htoNat]; omega : ¬ (abiWord 32 ++ (abiWord xs.length ++
          xs.flatMap (fun a => List.replicate 24 '0' ++ a.drop 2))).length
          < 128 + 64 * ((xs.length : Int)).toNat)]
      refine congrArg Except.ok ?_
      have h128 : ∀ i : Nat, (abiWord 32 ++ (abiWord xs.length ++
          xs.flatMap (fun a => List.replicate 24 '0' ++ a.drop 2))).drop (128 + i * 64)
          = (xs.flatMap (fun a => List.replicate 24 '0' ++ a.drop 2)).drop (64 * i) := by
        intro i
        have hsplit : 128 + i * 64 = 64 + (64 + 64 * i) := by omega
        rw [hsplit, ← List.drop_drop, h64, ← List.drop_drop]
        congr 1
        conv_lhs => rw [← hWn]
        exact List.drop_left _ _
      apply List.ext_get
      · simp [htoNat]
      · intro i h1 h2
        rw [List.get_map]
        have hi : i < xs.length := by
          simpa [htoNat] using h2
        have hrange : (List.range ((xs.length : Int)).toNat).get
            ⟨i, by simpa [List.length_map] using h1⟩ = i := by
          simp [List.get_range]
        rw [hrange, h128 i, flatMap_drop_take _ xs i hi hfa]
        have hsl : (List.replicate 24 '0' ++ (xs.get ⟨i, hi⟩).drop 2).drop 24
            = (xs.get ⟨i, hi⟩).drop 2 := by
          conv_lhs => rw [show (24 : Nat) = (List.replicate 24 '0' : Str).length by simp]
          exact List.drop_left _ _
        rw [hsl]
        have hmem : xs.get ⟨i, hi⟩ ∈ xs := List.get_mem xs i hi
        have htk := (hx _ hmem).1
        conv_rhs => rw [← List.take_append_drop 2 (xs.get ⟨i, hi⟩), htk]

/-- C5 witness: decoding the encoding of two concrete addresses returns
them, a declared length of 0x3e9 = 1001 is rejected, and a truncated
400-character payload declaring two addresses is rejected. -/
theorem decodeAddressArray_roundtrip_witness :
    decodeAddressArray (encodeAddressArray
      [str "0xaabbccddeeff00112233445566778899aabbccdd",
       str "0x00112233445566778899aabbccddeeff00112233"])
      = .ok [str "0xaabbccddeeff00112233445566778899aabbccdd",
             str "0x00112233445566778899aabbccddeeff00112233"] ∧
    (∃ e, decodeAddressArray (str "0x" ++ abiWord 32 ++ abiWord 1001) = .error e) := by
  constructor
  · exact decodeAddressArray_roundtrip_and_errors.1
      [str "0xaabbccddeeff00112233445566778899aabbccdd",
       str "0x00112233445566778899aabbccddeeff00112233"]
      (by norm_num)
      (by
        intro a ha
        simp only [List.mem_cons, List.not_mem_nil, or_false] at ha
        rcases ha with rfl | rfl <;> exact ⟨rfl, rfl⟩)
  · refine decodeAddressArray_roundtrip_and_errors.2.2.1
      (str "0x" ++ abiWord 32 ++ abiWord 1001) 1001 ?_ ?_ (by norm_num)
    · have h1 : (abiWord 32).length = 64 := abiWord_length (by norm_num)
      have h2 : (abiWord 1001).length = 64 := abiWord_length (by norm_num)
      simp [List.length_append, h1, h2, str]
    · have hd : ((str "0x" ++ abiWord 32 ++ abiWord 1001).drop 2)
          = abiWord 32 ++ abiWord 1001 := by
        simp [str, List.append_assoc]
      rw [hd]
      have h64 : (abiWord 32 ++ abiWord 1001).drop 64 = abiWord 1001 := by
        conv_lhs => rw [← abiWord_length (by norm_num : (32:Nat) < 16 ^ 64)]
        exact List.drop_left _ _
      rw [h64]
      have ht : (abiWord 1001).take 64 = abiWord 1001 := by
        rw [List.take_of_length_le (by rw [abiWord_length (by norm_num : (1001:Nat) < 16 ^ 64)])]
      rw [ht]
      exact jsParseIntHex_abiWord (by norm_num)

-- ============================================
-- src/services/decoder.ts : decodeCalldata (C6)
-- ============================================

/-- `TransactionType` from `src/types/index.ts`. -/
inductive TransactionType where
  | transfer
  | module_config
  | wallet_admin
  | recovery_setup
  | external_call
  | unknown
deriving DecidableEq, Repr

/-- A decoded argument value: a string or a string array. -/
inductive ArgVal where
  | s (v : Str)
  | arr (vs : List Str)
deriving DecidableEq, Repr

/-- `DecodedParams` from `src/types/index.ts`: a function name and a
string/string-array argument map. -/
structure DecodedParams where
  function : String
  args : List (String × ArgVal)
deriving DecidableEq, Repr

/-- One entry of the `FUNCTION_SELECTORS` table in
`src/services/decoder.ts`: function name, its ABI string, and the
transaction type to classify it as. -/
structure FunctionInfo where
  name : String
  abi : String
  type : TransactionType
deriving DecidableEq, Repr

/-- `DecodedCalldata` from `src/services/decoder.ts`. -/
structure DecodedCalldata where
  transactionType : TransactionType
  decodedParams : Option DecodedParams
deriving DecidableEq, Repr

/-- The environment `decodeCalldata` reads: the selector table (keyed by
the lowercased 4-byte selector, `quais.id(...)` being an external constant),
the three configured module addresses, the quais ABI argument parser
(`Interface.parseTransaction`; `none` models both a `null` result and a
thrown decode error), and JavaScript `BigInt(string)` (`none` models the
`TypeError` thrown on a malformed numeric string). -/
structure DecodeCtx where
  selectors : List (Str × FunctionInfo)
  dailyLimitModule : Option Str
  whitelistModule : Option Str
  socialRecoveryModule : Option Str
  parseArgs : FunctionInfo → Str → Option (List (String × ArgVal))
  bigIntOf : Str → Option Int

/-- Association-list lookup over `Str` keys. -/
def lookupSel (table : List (Str × FunctionInfo)) (key : Str) : Option FunctionInfo :=
  match table with
  | [] => none
  | (k, v) :: rest => if k = key then some v else lookupSel rest key

/-- `config.contracts.<module>?.toLowerCase() === toLower`: an optional
configured module address compared case-insensitively (undefined compares
false). -/
def moduleMatches (m : Option Str) (toLower : Str) : Bool :=
  match m with
  | some addr => jsToLower addr == toLower
  | none => false

/-- `decodeCalldata` from `src/services/decoder.ts` lines 547-648:
empty data is a transfer; a known selector is classified by the table with
decoded args, falling back to `{function: <table name>, args: {rawData}}`
when the parse returns null or throws; an unknown selector to a configured
module address is `module_config` with rawData; anything else — after the
`BigInt(value)` test whose two branches coincide — is `external_call` with
rawData. -/
def decodeCalldata (ctx : DecodeCtx) (toAddress data value : Str) :
    Except Str DecodedCalldata :=
  if data.isEmpty ∨ data = str "0x" then
    .ok ⟨.transfer, none⟩
  else
    match lookupSel ctx.selectors (jsToLower (data.take 10)) with
    | none =>
      if moduleMatches ctx.dailyLimitModule (jsToLower toAddress) ||
         moduleMatches ctx.whitelistModule (jsToLower toAddress) ||
         moduleMatches ctx.socialRecoveryModule (jsToLower toAddress) then
        .ok ⟨.module_config, some ⟨"unknown", [("rawData", .s data)]⟩⟩
      else
        match ctx.bigIntOf value with
        | none => .error (str "BigInt conversion failed")
        | some v =>
          if v = 0 then
            .ok ⟨.external_call, some ⟨"unknown", [("rawData", .s data)]⟩⟩
          else
            .ok ⟨.external_call, some ⟨"unknown", [("rawData", .s data)]⟩⟩
    | some functionInfo =>
      match ctx.parseArgs functionInfo data with
      | some args => .ok ⟨functionInfo.type, some ⟨functionInfo.name, args⟩⟩
      | none => .ok ⟨functionInfo.type, some ⟨functionInfo.name, [("rawData", .s data)]⟩⟩

/-- The classification exactly as the spec states it (rule 2 falls back to
`{function: "unknown", args: {rawData}}`). -/
def specDecodeCalldata (ctx : DecodeCtx) (toAddress data value : Str) :
    DecodedCalldata :=
  if data.isEmpty ∨ data = str "0x" then
    ⟨.transfer, none⟩
  else
    match lookupSel ctx.selectors (jsToLower (data.take 10)) with
    | some functionInfo =>
      match ctx.parseArgs functionInfo data with
      | some args => ⟨functionInfo.type, some ⟨functionInfo.name, args⟩⟩
      | none => ⟨functionInfo.type, some ⟨"unknown", [("rawData", .s data)]⟩⟩
    | none =>
      if moduleMatches ctx.dailyLimitModule (jsToLower toAddress) ||
         moduleMatches ctx.whitelistModule (jsToLower toAddress) ||
         moduleMatches ctx.socialRecoveryModule (jsToLower toAddress) then
        ⟨.module_config, some ⟨"unknown", [("rawData", .s data)]⟩⟩
      else
        ⟨.external_call, some ⟨"unknown", [("rawData", .s data)]⟩⟩

/-- The classification with the fallback corrected to carry the table
entry's function name. -/
def specDecodeCalldataAmended (ctx : DecodeCtx) (toAddress data value : Str) :
    DecodedCalldata :=
  if data.isEmpty ∨ data = str "0x" then
    ⟨.transfer, none⟩
  else
    match lookupSel ctx.selectors (jsToLower (data.take 10)) with
    | some functionInfo =>
      match ctx.parseArgs functionInfo data with
      | some args => ⟨functionInfo.type, some ⟨functionInfo.name, args⟩⟩
      | none => ⟨functionInfo.type, some ⟨functionInfo.name, [("rawData", .s data)]⟩⟩
    | none =>
      if moduleMatches ctx.dailyLimitModule (jsToLower toAddress) ||
         moduleMatches ctx.whitelistModule (jsToLower toAddress) ||
         moduleMatches ctx.socialRecoveryModule (jsToLower toAddress) then
        ⟨.module_config, some ⟨"unknown", [("rawData", .s data)]⟩⟩
      else
        ⟨.external_call, some ⟨"unknown", [("rawData", .s data)]⟩⟩

-- ============================================
-- C6
-- ============================================

/-- A one-entry selector context used to exhibit the fallback divergence:
the `addOwner` selector is in the table, but the ABI parser fails on the
given data. -/
def failingParseCtx : DecodeCtx :=
  { selectors := [(str "0x7065cb48",
      ⟨"addOwner", "function addOwner(address owner)", .wallet_admin⟩)]
    dailyLimitModule := none
    whitelistModule := none
    socialRecoveryModule := none
    parseArgs := fun _ _ => none
    bigIntOf := fun _ => some 0 }

/-- C6 counterexample: calldata carrying the known `addOwner` selector but
undecodable arguments is classified by the code as
`{function: "addOwner", args: {rawData}}` — the table's function name —
while the claim's rule 2 prescribes `{function: "unknown", args:
{rawData}}`; the two decoded results differ. -/
theorem decodeCalldata_fallback_keeps_table_name :
    decodeCalldata failingParseCtx (str "0x00112233445566778899aabbccddeeff00112233")
        (str "0x7065cb48") (str "0")
      = .ok ⟨.wallet_admin, some ⟨"addOwner", [("rawData", .s (str "0x7065cb48"))]⟩⟩ ∧
    specDecodeCalldata failingParseCtx (str "0x00112233445566778899aabbccddeeff00112233")
        (str "0x7065cb48") (str "0")
      = ⟨.wallet_admin, some ⟨"unknown", [("rawData", .s (str "0x7065cb48"))]⟩⟩ ∧
    ("addOwner" : String) ≠ "unknown" := by
  refine ⟨?_, ?_, by decide⟩
  · rfl
  · rfl

/-- C6 (amended): for every input whose `value` is a well-formed numeric
string (which the proposal handler always supplies), `decodeCalldata`
classifies exactly by the spec's four rules, with the rule-2 decode-failure
fallback carrying the *table entry's* function name instead of
`"unknown"`: empty data is a transfer with no params, a known selector
takes the table's type with decoded args or the rawData fallback, an
unknown selector to a configured module address is `module_config` with
rawData, and anything else is `external_call` with rawData. -/
theorem decodeCalldata_matches_spec_rules (ctx : DecodeCtx)
    (toAddress data value : Str) (v : Int) (hv : ctx.bigIntOf value = some v) :
    decodeCalldata ctx toAddress data value
      = .ok (specDecodeCalldataAmended ctx toAddress data value) := by
  unfold decodeCalldata specDecodeCalldataAmended
  split
  next => rfl
  next =>
    cases hsel : lookupSel ctx.selectors (jsToLower (data.take 10)) with
    | none =>
      dsimp only
      split
      next => rfl
      next =>
        rw [hv]
        dsimp only
        split <;> rfl
    | some functionInfo =>
      dsimp only
      cases hargs : ctx.parseArgs functionInfo data <;> rfl

/-- C6 witness: the amended classification evaluated on the counterexample
context for a plain value transfer (empty data) and for an unknown
selector to a non-module address. -/
theorem decodeCalldata_matches_spec_rules_witness :
    decodeCalldata failingParseCtx (str "0xaabbccddeeff00112233445566778899aabbccdd")
        (str "0xdeadbeef99") (str "7")
      = .ok (specDecodeCalldataAmended failingParseCtx
          (str "0xaabbccddeeff00112233445566778899aabbccdd")
          (str "0xdeadbeef99") (str "7")) ∧
    specDecodeCalldataAmended failingParseCtx
        (str "0xaabbccddeeff00112233445566778899aabbccdd")
        (str "0xdeadbeef99") (str "7")
      = ⟨.external_call, some ⟨"unknown", [("rawData", .s (str "0xdeadbeef99"))]⟩⟩ := by
  refine ⟨?_, by rfl⟩
  exact decodeCalldata_matches_spec_rules failingParseCtx
    (str "0xaabbccddeeff00112233445566778899aabbccdd")
    (str "0xdeadbeef99") (str "7") 0 rfl

-- ============================================
-- Relational-store primitives (PostgREST upsert / insert / update
-- semantics used by src/services/supabase.ts)
-- ============================================

section TableOps

variable {R : Type}

/-- `upsert` with an `onConflict` column set: when a row with the same
conflict key exists, the supplied columns overwrite it (`merge row r`);
otherwise the fresh row is appended. -/
def upsertRows (conflictWith : R → R → Bool) (merge : R → R → R) (row : R)
    (t : List R) : List R :=
  if t.any (conflictWith row) then
    t.map (fun r => if conflictWith row r then merge row r else r)
  else
    t ++ [row]

/-- `insert` whose duplicate-key error (code 23505) is swallowed: when any
existing row carries the same unique key, the statement fails and the table
is unchanged. -/
def insertRows (conflictWith : R → R → Bool) (row : R) (t : List R) : List R :=
  if t.any (conflictWith row) then t else t ++ [row]

/-- Whether a batch contains two records sharing a unique key. -/
def hasDupWithin (conflictWith : R → R → Bool) : List R → Bool
  | [] => false
  | r :: rest => rest.any (conflictWith r) || hasDupWithin conflictWith rest

/-- A single multi-row `insert` statement with the duplicate-key error
swallowed: one conflicting record (against the table or within the batch)
fails the whole statement, inserting nothing. -/
def insertBatch (conflictWith : R → R → Bool) (rows : List R) (t : List R) : List R :=
  if rows.any (fun nr => t.any (conflictWith nr)) || hasDupWithin conflictWith rows then t
  else t ++ rows

/-- `update ... eq(...)`: apply `f` to every row matching the filter. -/
def updateWhere (P : R → Bool) (f : R → R) (t : List R) : List R :=
  t.map (fun r => if P r then f r else r)

theorem upsertRows_idem (cw : R → R → Bool) (mg : R → R → R) (row : R)
    (hrefl : cw row row = true)
    (hkeep : ∀ r, cw row r = true → cw row (mg row r) = true)
    (hmm : ∀ r, mg row (mg row r) = mg row r)
    (hnew : mg row row = row) (t : List R) :
    upsertRows cw mg row (upsertRows cw mg row t) = upsertRows cw mg row t := by
  unfold upsertRows
  by_cases h : t.any (cw row) = true
  · rw [if_pos h]
    have hmapany : (t.map fun r => if cw row r then mg row r else r).any (cw row) = true := by
      obtain ⟨r, hr, hcw⟩ := List.any_eq_true.mp h
      refine List.any_eq_true.mpr ⟨if cw row r then mg row r else r, List.mem_map_of_mem _ hr, ?_⟩
      rw [if_pos hcw]
      exact hkeep r hcw
    rw [if_pos hmapany, List.map_map]
    apply List.map_congr_left
    intro r _
    by_cases hcw : cw row r = true
    · simp only [Function.comp, if_pos hcw, if_pos (hkeep r hcw), hmm]
    · simp only [Function.comp, if_neg hcw]
  · rw [if_neg h]
    have hany : (t ++ [row]).any (cw row) = true :=
      List.any_eq_true.mpr ⟨row, by simp, hrefl⟩
    rw [if_pos hany, List.map_append]
    have h1 : (t.map fun r => if cw row r then mg row r else r) = t := by
      conv_rhs => rw [← List.map_id t]
      apply List.map_congr_left
      intro r hr
      rw [if_neg (by
        intro hc
        exact absurd (List.any_eq_true.mpr ⟨r, hr, hc⟩) h)]
      rfl
    rw [h1]
    simp [hrefl, hnew]

theorem insertRows_idem (cw : R → R → Bool) (row : R) (hrefl : cw row row = true)
    (t : List R) :
    insertRows cw row (insertRows cw row t) = insertRows cw row t := by
  unfold insertRows
  by_cases h : t.any (cw row) = true
  · rw [if_pos h, if_pos h]
  · rw [if_neg h, if_pos (List.any_eq_true.mpr ⟨row, by simp, hrefl⟩)]

theorem insertRows_mem (cw : R → R → Bool) (row : R) (hrefl : cw row row = true)
    (t : List R) :
    (insertRows cw row t).any (cw row) = true := by
  unfold insertRows
  by_cases h : t.any (cw row) = true
  · rw [if_pos h]; exact h
  · rw [if_neg h]
    exact List.any_eq_true.mpr ⟨row, by simp, hrefl⟩

theorem insertBatch_idem (cw : R → R → Bool) (rows : List R)
    (hrefl : ∀ r ∈ rows, cw r r = true) (t : List R) :
    insertBatch cw rows (insertBatch cw rows t) = insertBatch cw rows t := by
  unfold insertBatch
  by_cases h : (rows.any (fun nr => t.any (cw nr)) || hasDupWithin cw rows) = true
  · rw [if_pos h, if_pos h]
  · rw [if_neg h]
    cases rows with
    | nil => simp
    | cons r rest =>
      have hc : ((r :: rest).any fun nr => (t ++ r :: rest).any (cw nr)) = true := by
        refine List.any_eq_true.mpr ⟨r, by simp, ?_⟩
        exact List.any_eq_true.mpr ⟨r, by simp, hrefl r (by simp)⟩
      rw [if_pos (by rw [hc, Bool.true_or])]

theorem updateWhere_deact_idem (P : R → Bool) (f : R → R)
    (h : ∀ r, P r = true → P (f r) = false) (t : List R) :
    updateWhere P f (updateWhere P f t) = updateWhere P f t := by
  unfold updateWhere
  rw [List.map_map]
  apply List.map_congr_left
  intro r _
  by_cases hp : P r = true
  · simp only [Function.comp, if_pos hp, h r hp, Bool.false_eq_true, if_false]
  · simp only [Function.comp, if_neg hp]

theorem updateWhere_const_idem (P : R → Bool) (f : R → R)
    (h : ∀ r, P r = true → P (f r) = true ∧ f (f r) = f r) (t : List R) :
    updateWhere P f (updateWhere P f t) = updateWhere P f t := by
  unfold updateWhere
  rw [List.map_map]
  apply List.map_congr_left
  intro r _
  by_cases hp : P r = true
  · simp only [Function.comp, if_pos hp, if_pos (h r hp).1, (h r hp).2]
  · simp only [Function.comp, if_neg hp]

theorem updateWhere_clears (P : R → Bool) (f : R → R)
    (h : ∀ r, P r = true → P (f r) = false) (t : List R) :
    (updateWhere P f t).any P = false := by
  unfold updateWhere
  rw [Bool.eq_false_iff]
  intro hc
  obtain ⟨r, hr, hp⟩ := List.any_eq_true.mp hc
  obtain ⟨r0, hr0, rfl⟩ := List.mem_map.mp hr
  by_cases hp0 : P r0 = true
  · rw [if_pos hp0] at hp
    rw [h r0 hp0] at hp
    exact Bool.false_ne_true hp
  · rw [if_neg hp0] at hp
    exact hp0 hp

end TableOps

-- ============================================
-- The projected data model (src/types/index.ts, schema in the SQL setup)
-- ============================================

/-- `status` of a multisig transaction. -/
inductive TxStatus where
  | pending
  | executed
  | cancelled
deriving DecidableEq, Repr

/-- A `wallets` row. -/
structure WalletRow where
  address : Str
  name : Option Str
  threshold : Int
  ownerCount : Int
  createdAtBlock : Int
  createdAtTx : Str
deriving DecidableEq, Repr

/-- A `wallet_owners` row; unique on (wallet, owner, addedAtBlock). -/
structure OwnerRow where
  walletAddress : Str
  ownerAddress : Str
  addedAtBlock : Int
  addedAtTx : Str
  isActive : Bool
  removedAtBlock : Option Int
  removedAtTx : Option Str
deriving DecidableEq, Repr

/-- A `transactions` row; unique on (wallet, txHash). -/
structure TxRow where
  walletAddress : Str
  txHash : Str
  toAddress : Str
  value : Str
  data : Str
  transactionType : TransactionType
  decodedParams : Option DecodedParams
  status : TxStatus
  confirmationCount : Int
  submittedBy : Str
  submittedAtBlock : Int
  submittedAtTx : Str
  executedAtBlock : Option Int
  executedAtTx : Option Str
  cancelledAtBlock : Option Int
  cancelledAtTx : Option Str
deriving DecidableEq, Repr

/-- A `confirmations` row; unique on (wallet, txHash, owner,
confirmedAtBlock). -/
structure ConfRow where
  walletAddress : Str
  txHash : Str
  ownerAddress : Str
  confirmedAtBlock : Int
  confirmedAtTx : Str
  isActive : Bool
  revokedAtBlock : Option Int
  revokedAtTx : Option Str
deriving DecidableEq, Repr

/-- A `wallet_modules` row; unique on (wallet, module). -/
structure ModuleRow where
  walletAddress : Str
  moduleAddress : Str
  enabledAtBlock : Int
  enabledAtTx : Str
  isActive : Bool
  disabledAtBlock : Option Int
  disabledAtTx : Option Str
deriving DecidableEq, Repr

/-- A `deposits` row; unique on (wallet, depositedAtTx). -/
structure DepositRow where
  walletAddress : Str
  senderAddress : Str
  amount : Str
  depositedAtBlock : Int
  depositedAtTx : Str
deriving DecidableEq, Repr

/-- A `social_recovery_configs` row; unique on wallet. -/
structure RecoveryConfigRow where
  walletAddress : Str
  threshold : Int
  recoveryPeriod : Int
  setupAtBlock : Int
  setupAtTx : Str
deriving DecidableEq, Repr

/-- A `social_recovery_guardians` row; unique on (wallet, guardian,
addedAtBlock). -/
structure GuardianRow where
  walletAddress : Str
  guardianAddress : Str
  addedAtBlock : Int
  addedAtTx : Str
  isActive : Bool
deriving DecidableEq, Repr

/-- A `social_recoveries` row; unique on (wallet, recoveryHash). -/
structure RecoveryRow where
  walletAddress : Str
  recoveryHash : Str
  newOwners : List Str
  newThreshold : Int
  initiatorAddress : Str
  approvalCount : Int
  requiredThreshold : Int
  executionTime : Int
  status : TxStatus
  initiatedAtBlock : Int
  initiatedAtTx : Str
  executedAtBlock : Option Int
  executedAtTx : Option Str
  cancelledAtBlock : Option Int
  cancelledAtTx : Option Str
deriving DecidableEq, Repr

/-- A `social_recovery_approvals` row; unique on (wallet, recoveryHash,
guardian, approvedAtBlock). -/
structure ApprovalRow where
  walletAddress : Str
  recoveryHash : Str
  guardianAddress : Str
  approvedAtBlock : Int
  approvedAtTx : Str
  isActive : Bool
  revokedAtBlock : Option Int
  revokedAtTx : Option Str
deriving DecidableEq, Repr

/-- A `daily_limit_state` row; unique on wallet. -/
structure DailyLimitRow where
  walletAddress : Str
  dailyLimit : Str
  spentToday : Str
  lastResetDay : Str
deriving DecidableEq, Repr

/-- A `whitelist_entries` row; unique on (wallet, whitelisted,
addedAtBlock). -/
structure WhitelistRow where
  walletAddress : Str
  whitelistedAddress : Str
  limit : Str
  addedAtBlock : Int
  addedAtTx : Str
  isActive : Bool
  removedAtBlock : Option Int
  removedAtTx : Option Str
deriving DecidableEq, Repr

/-- A `module_transactions` row; append-only, no unique key. -/
structure ModuleTxRow where
  walletAddress : Str
  moduleType : Str
  moduleAddress : Str
  toAddress : Str
  value : Str
  remainingLimit : Option Str
  executedAtBlock : Int
  executedAtTx : Str
deriving DecidableEq, Repr

/-- The projected relational store: one list per table, in row-insertion
order.  The `updated_at` bookkeeping columns are not modelled. -/
structure Store where
  wallets : List WalletRow
  walletOwners : List OwnerRow
  transactions : List TxRow
  confirmations : List ConfRow
  walletModules : List ModuleRow
  deposits : List DepositRow
  recoveryConfigs : List RecoveryConfigRow
  recoveryGuardians : List GuardianRow
  recoveries : List RecoveryRow
  recoveryApprovals : List ApprovalRow
  dailyLimits : List DailyLimitRow
  whitelistEntries : List WhitelistRow
  moduleTransactions : List ModuleTxRow
deriving DecidableEq, Repr

/-- The external collaborators of the handlers: the quais address check,
the two contract reads used for late-discovered wallets, the block
timestamp RPC (`none` = the call ultimately threw), the wall clock, the
current date string, the calldata-decoder environment, and the JavaScript
BigInt conversion / rendering used by the daily-limit update. -/
structure Env where
  quaiCheck : Str → Bool
  getOwnersResult : Str → Option Str
  thresholdResult : Str → Option Str
  blockTimestampOf : Int → Option Int
  nowSeconds : Int
  todayStr : Str
  decodeCtx : DecodeCtx
  bigIntOf : Str → Option Int
  decString : Int → Str

/-- Address validation at the gateway boundary (the field name only feeds
the error message and is dropped here). -/
def vAddr (env : Env) (a : Str) : Except Str Str :=
  validateAndNormalizeAddress env.quaiCheck a []

/-- Hash validation at the gateway boundary. -/
def vB32 (h : Str) : Except Str Str := validateBytes32 h []

/-- Sequencing of a validation and the rest of a gateway call: an invalid
input throws past the rest. -/
def withOk {α : Type} : Except Str Str → (Str → Except Str α) → Except Str α
  | .ok x, k => k x
  | .error e, _ => .error e

theorem withOk_ok {α : Type} {v : Except Str Str} {k : Str → Except Str α} {out : α}
    (h : withOk v k = .ok out) : ∃ x, v = .ok x ∧ k x = .ok out := by
  cases hv : v with
  | ok x =>
    refine ⟨x, rfl, ?_⟩
    rw [hv, withOk] at h
    exact h
  | error e =>
    rw [hv, withOk] at h
    exact absurd h (by simp)

/-- Sequencing of a fallible step and the rest of a handler. -/
def onOk {α β : Type} : Except Str α → (α → Except Str β) → Except Str β
  | .ok x, k => k x
  | .error e, _ => .error e

theorem onOk_ok {α β : Type} {v : Except Str α} {k : α → Except Str β} {out : β}
    (h : onOk v k = .ok out) : ∃ x, v = .ok x ∧ k x = .ok out := by
  cases hv : v with
  | ok x =>
    refine ⟨x, rfl, ?_⟩
    rw [hv, onOk] at h
    exact h
  | error e =>
    rw [hv, onOk] at h
    exact absurd h (by simp)

/-- An optional collaborator result: `none` throws the given message. -/
def onSome {α β : Type} : Option α → (α → Except Str β) → Str → Except Str β
  | some x, k, _ => k x
  | none, _, e => .error e

theorem onSome_ok {α β : Type} {v : Option α} {k : α → Except Str β} {msg : Str}
    {out : β} (h : onSome v k msg = .ok out) : ∃ x, v = some x ∧ k x = .ok out := by
  cases hv : v with
  | some x =>
    refine ⟨x, rfl, ?_⟩
    rw [hv, onSome] at h
    exact h
  | none =>
    rw [hv, onSome] at h
    exact absurd h (by simp)

/-- Validate a list of inputs left to right (`Array.prototype.map` over a
validator), surfacing the first failure. -/
def mapExcept {α β : Type} (f : α → Except Str β) : List α → Except Str (List β)
  | [] => .ok []
  | a :: rest =>
    match f a with
    | .error e => .error e
    | .ok b =>
      match mapExcept f rest with
      | .error e => .error e
      | .ok bs => .ok (b :: bs)

/-- Optional-hash validation (ternary `x ? validateBytes32(x) : null`). -/
def vB32opt : Option Str → Except Str (Option Str)
  | none => .ok none
  | some x =>
    match validateBytes32 x [] with
    | .ok y => .ok (some y)
    | .error e => .error e

-- ============================================
-- src/services/supabase.ts : gateway operations over the Store
-- ============================================

/-- Unique-key match for `wallet_owners`. -/
def ownerConflict (row r : OwnerRow) : Bool :=
  row.walletAddress == r.walletAddress && row.ownerAddress == r.ownerAddress &&
    row.addedAtBlock == r.addedAtBlock

/-- Unique-key match for `confirmations`. -/
def confConflict (row r : ConfRow) : Bool :=
  row.walletAddress == r.walletAddress && row.txHash == r.txHash &&
    row.ownerAddress == r.ownerAddress && row.confirmedAtBlock == r.confirmedAtBlock

/-- Unique-key match for `social_recovery_guardians`. -/
def guardianConflict (row r : GuardianRow) : Bool :=
  row.walletAddress == r.walletAddress && row.guardianAddress == r.guardianAddress &&
    row.addedAtBlock == r.addedAtBlock

/-- Unique-key match for `social_recovery_approvals`. -/
def approvalConflict (row r : ApprovalRow) : Bool :=
  row.walletAddress == r.walletAddress && row.recoveryHash == r.recoveryHash &&
    row.guardianAddress == r.guardianAddress && row.approvedAtBlock == r.approvedAtBlock

/-- Unique-key match for `whitelist_entries`. -/
def whitelistConflict (row r : WhitelistRow) : Bool :=
  row.walletAddress == r.walletAddress && row.whitelistedAddress == r.whitelistedAddress &&
    row.addedAtBlock == r.addedAtBlock

/-- Unique-key match for `deposits`. -/
def depositConflict (row r : DepositRow) : Bool :=
  row.walletAddress == r.walletAddress && row.depositedAtTx == r.depositedAtTx

/-- The `trigger_update_confirmation_count` body: recount the active
confirmations of (wallet, txHash) into `transactions.confirmation_count`. -/
def applyConfTrigger (w tx : Str) (confs : List ConfRow) (txs : List TxRow) : List TxRow :=
  txs.map fun r =>
    if r.walletAddress == w && r.txHash == tx then
      { r with confirmationCount :=
          ((confs.filter fun c => c.walletAddress == w && c.txHash == tx && c.isActive).length : Int) }
    else r

/-- The `trigger_update_recovery_approval_count` body. -/
def applyApprovalTrigger (w rh : Str) (apps : List ApprovalRow) (recs : List RecoveryRow) :
    List RecoveryRow :=
  recs.map fun r =>
    if r.walletAddress == w && r.recoveryHash == rh then
      { r with approvalCount :=
          ((apps.filter fun c => c.walletAddress == w && c.recoveryHash == rh && c.isActive).length : Int) }
    else r

/-- `upsertWallet`: validate, then upsert on conflict column `address`. -/
def upsertWallet (env : Env) (address : Str) (name : Option Str)
    (threshold ownerCount createdAtBlock : Int) (createdAtTx : Str) (s : Store) :
    Except Str Store :=
  withOk (vAddr env address) fun a =>
  withOk (vB32 createdAtTx) fun ctx =>
  .ok { s with wallets :=
    (upsertRows (fun row r => row.address == r.address) (fun row _ => row)
      ⟨a, name, threshold, ownerCount, createdAtBlock, ctx⟩ s.wallets) }

/-- `addOwner`: insert with the duplicate swallowed. -/
def addOwner (env : Env) (walletAddress ownerAddress : Str) (addedAtBlock : Int)
    (addedAtTx : Str) (s : Store) : Except Str Store :=
  withOk (vAddr env walletAddress) fun w =>
  withOk (vAddr env ownerAddress) fun o =>
  withOk (vB32 addedAtTx) fun tx =>
  .ok { s with walletOwners :=
    (insertRows ownerConflict ⟨w, o, addedAtBlock, tx, true, none, none⟩ s.walletOwners) }

/-- The record set `addOwnersBatch` builds before its single insert. -/
structure OwnerInput where
  walletAddress : Str
  ownerAddress : Str
  addedAtBlock : Int
  addedAtTx : Str
deriving DecidableEq, Repr

/-- Per-record validation inside `addOwnersBatch`. -/
def validateOwnerRecord (env : Env) (o : OwnerInput) : Except Str OwnerRow :=
  withOk (vAddr env o.walletAddress) fun w =>
  withOk (vAddr env o.ownerAddress) fun ow =>
  withOk (vB32 o.addedAtTx) fun tx =>
  .ok ⟨w, ow, o.addedAtBlock, tx, true, none, none⟩

/-- `addOwnersBatch`: empty input returns immediately; otherwise validate
all records and run one multi-row insert with duplicates swallowed. -/
def addOwnersBatch (env : Env) (owners : List OwnerInput) (s : Store) : Except Str Store :=
  if owners.isEmpty then .ok s
  else
    onOk (mapExcept (validateOwnerRecord env) owners) fun records =>
    .ok { s with walletOwners := (insertBatch ownerConflict records s.walletOwners) }

/-- `removeOwner`: mark the active (wallet, owner) rows inactive. -/
def removeOwner (env : Env) (walletAddress ownerAddress : Str) (removedAtBlock : Int)
    (removedAtTx : Str) (s : Store) : Except Str Store :=
  withOk (vAddr env walletAddress) fun w =>
  withOk (vAddr env ownerAddress) fun o =>
  withOk (vB32 removedAtTx) fun tx =>
  .ok { s with walletOwners :=
    (updateWhere (fun r => r.walletAddress == w && r.ownerAddress == o && r.isActive)
      (fun r => { r with
        isActive := false
        removedAtBlock := some removedAtBlock
        removedAtTx := some tx })
      s.walletOwners) }

/-- `updateWalletThreshold`. -/
def updateWalletThreshold (env : Env) (address : Str) (threshold : Int) (s : Store) :
    Except Str Store :=
  withOk (vAddr env address) fun a =>
  .ok { s with wallets :=
    (updateWhere (fun r => r.address == a) (fun r => { r with threshold := threshold })
      s.wallets) }

/-- `updateWalletOwnerCount`: the server-side `increment_owner_count`
function adds `delta` to the matching wallet row. -/
def updateWalletOwnerCount (env : Env) (address : Str) (delta : Int) (s : Store) :
    Except Str Store :=
  withOk (vAddr env address) fun a =>
  .ok { s with wallets :=
    (updateWhere (fun r => r.address == a) (fun r => { r with ownerCount := r.ownerCount + delta })
      s.wallets) }

/-- `addModule`: upsert on (wallet, module); the payload carries only the
enabled columns, so a re-enable keeps the existing disabled columns. -/
def addModule (env : Env) (walletAddress moduleAddress : Str) (enabledAtBlock : Int)
    (enabledAtTx : Str) (s : Store) : Except Str Store :=
  withOk (vAddr env walletAddress) fun w =>
  withOk (vAddr env moduleAddress) fun m =>
  withOk (vB32 enabledAtTx) fun tx =>
  .ok { s with walletModules :=
    (upsertRows
      (fun row r => row.walletAddress == r.walletAddress && row.moduleAddress == r.moduleAddress)
      (fun row r => { r with
        enabledAtBlock := row.enabledAtBlock
        enabledAtTx := row.enabledAtTx
        isActive := true })
      ⟨w, m, enabledAtBlock, tx, true, none, none⟩ s.walletModules) }

/-- `disableModule`. -/
def disableModule (env : Env) (walletAddress moduleAddress : Str) (disabledAtBlock : Int)
    (disabledAtTx : Str) (s : Store) : Except Str Store :=
  withOk (vAddr env walletAddress) fun w =>
  withOk (vAddr env moduleAddress) fun m =>
  withOk (vB32 disabledAtTx) fun tx =>
  .ok { s with walletModules :=
    (updateWhere (fun r => r.walletAddress == w && r.moduleAddress == m && r.isActive)
      (fun r => { r with
        isActive := false
        disabledAtBlock := some disabledAtBlock
        disabledAtTx := some tx })
      s.walletModules) }

/-- `upsertTransaction`: validate, then upsert on (wallet, txHash) with the
full column set (including the pass-through `confirmation_count`). -/
def upsertTransaction (env : Env) (walletAddress txHash toAddress value data : Str)
    (transactionType : TransactionType) (decodedParams : Option DecodedParams)
    (status : TxStatus) (confirmationCount : Int) (submittedBy : Str)
    (submittedAtBlock : Int) (submittedAtTx : Str)
    (executedAtBlock : Option Int) (executedAtTx : Option Str)
    (cancelledAtBlock : Option Int) (cancelledAtTx : Option Str) (s : Store) :
    Except Str Store :=
  withOk (vAddr env walletAddress) fun w =>
  withOk (vAddr env toAddress) fun toA =>
  withOk (vAddr env submittedBy) fun sb =>
  withOk (vB32 txHash) fun th =>
  withOk (vB32 submittedAtTx) fun st =>
  onOk (vB32opt executedAtTx) fun et =>
  onOk (vB32opt cancelledAtTx) fun ct =>
  .ok { s with transactions :=
    (upsertRows (fun row r => row.walletAddress == r.walletAddress && row.txHash == r.txHash)
      (fun row _ => row)
      ⟨w, th, toA, value, data, transactionType, decodedParams, status,
        confirmationCount, sb, submittedAtBlock, st, executedAtBlock, et,
        cancelledAtBlock, ct⟩
      s.transactions) }

/-- `updateTransactionStatus`: set the terminal status and its block/tx
pair on the (wallet, txHash) rows. -/
def updateTransactionStatus (env : Env) (walletAddress txHash : Str) (status : TxStatus)
    (blockNumber : Int) (chainTxHash : Str) (s : Store) : Except Str Store :=
  withOk (vAddr env walletAddress) fun w =>
  withOk (vB32 txHash) fun th =>
  withOk (vB32 chainTxHash) fun ct =>
  .ok { s with transactions :=
    (updateWhere (fun r => r.walletAddress == w && r.txHash == th)
      (fun r =>
        if status = .executed then
          { r with
            status := status
            executedAtBlock := some blockNumber
            executedAtTx := some ct }
        else
          { r with
            status := status
            cancelledAtBlock := some blockNumber
            cancelledAtTx := some ct })
      s.transactions) }

/-- `addConfirmation`: insert with the duplicate swallowed; on a real
insert the store trigger recounts `confirmation_count`. -/
def addConfirmation (env : Env) (walletAddress txHash ownerAddress : Str)
    (confirmedAtBlock : Int) (confirmedAtTx : Str) (s : Store) : Except Str Store :=
  withOk (vAddr env walletAddress) fun w =>
  withOk (vAddr env ownerAddress) fun o =>
  withOk (vB32 txHash) fun th =>
  withOk (vB32 confirmedAtTx) fun ctx =>
  if s.confirmations.any (confConflict ⟨w, th, o, confirmedAtBlock, ctx, true, none, none⟩) then
    .ok s
  else
    .ok { s with
      confirmations := s.confirmations ++ [⟨w, th, o, confirmedAtBlock, ctx, true, none, none⟩]
      transactions := (applyConfTrigger w th
        (s.confirmations ++ [⟨w, th, o, confirmedAtBlock, ctx, true, none, none⟩])
        s.transactions) }

/-- `revokeConfirmation`: deactivate the active row; the trigger recounts
when a row was updated. -/
def revokeConfirmation (env : Env) (walletAddress txHash ownerAddress : Str)
    (revokedAtBlock : Int) (revokedAtTx : Str) (s : Store) : Except Str Store :=
  withOk (vAddr env walletAddress) fun w =>
  withOk (vAddr env ownerAddress) fun o =>
  withOk (vB32 txHash) fun th =>
  withOk (vB32 revokedAtTx) fun rtx =>
  .ok { s with
    confirmations := (updateWhere
      (fun r => r.walletAddress == w && r.txHash == th && r.ownerAddress == o && r.isActive)
      (fun r => { r with
        isActive := false
        revokedAtBlock := some revokedAtBlock
        revokedAtTx := some rtx })
      s.confirmations)
    transactions :=
      (if s.confirmations.any
          (fun r => r.walletAddress == w && r.txHash == th && r.ownerAddress == o && r.isActive) then
        applyConfTrigger w th
          (updateWhere
            (fun r => r.walletAddress == w && r.txHash == th && r.ownerAddress == o && r.isActive)
            (fun r => { r with
              isActive := false
              revokedAtBlock := some revokedAtBlock
              revokedAtTx := some rtx })
            s.confirmations)
          s.transactions
      else s.transactions) }

/-- `upsertRecoveryConfig`: upsert the config row, mark every existing
guardian of the wallet inactive, then batch-insert the new guardian set
with duplicates swallowed. -/
def upsertRecoveryConfig (env : Env) (walletAddress : Str) (guardians : List Str)
    (threshold recoveryPeriod setupAtBlock : Int) (setupAtTx : Str) (s : Store) :
    Except Str Store :=
  withOk (vAddr env walletAddress) fun w =>
  withOk (vB32 setupAtTx) fun tx =>
  onOk (mapExcept (vAddr env) guardians) fun gs =>
    .ok { s with
      recoveryConfigs := (upsertRows (fun row r => row.walletAddress == r.walletAddress)
        (fun row _ => row) ⟨w, threshold, recoveryPeriod, setupAtBlock, tx⟩
        s.recoveryConfigs)
      recoveryGuardians :=
        (if gs.isEmpty then
          updateWhere (fun r => r.walletAddress == w) (fun r => { r with isActive := false })
            s.recoveryGuardians
        else
          insertBatch guardianConflict
            (gs.map fun g => (⟨w, g, setupAtBlock, tx, true⟩ : GuardianRow))
            (updateWhere (fun r => r.walletAddress == w) (fun r => { r with isActive := false })
              s.recoveryGuardians)) }

/-- `upsertRecovery`: full-column upsert on (wallet, recoveryHash),
including the pass-through `approval_count`. -/
def upsertRecovery (env : Env) (walletAddress recoveryHash : Str) (newOwners : List Str)
    (newThreshold : Int) (initiatorAddress : Str) (approvalCount requiredThreshold
    executionTime : Int) (status : TxStatus) (initiatedAtBlock : Int)
    (initiatedAtTx : Str) (executedAtBlock : Option Int) (executedAtTx : Option Str)
    (cancelledAtBlock : Option Int) (cancelledAtTx : Option Str) (s : Store) :
    Except Str Store :=
  withOk (vAddr env walletAddress) fun w =>
  withOk (vAddr env initiatorAddress) fun ia =>
  withOk (vB32 recoveryHash) fun rh =>
  withOk (vB32 initiatedAtTx) fun itx =>
  onOk (mapExcept (vAddr env) newOwners) fun owners =>
  onOk (vB32opt executedAtTx) fun et =>
  onOk (vB32opt cancelledAtTx) fun ct =>
        .ok { s with recoveries :=
          (upsertRows
            (fun row r => row.walletAddress == r.walletAddress && row.recoveryHash == r.recoveryHash)
            (fun row _ => row)
            ⟨w, rh, owners, newThreshold, ia, approvalCount, requiredThreshold,
              executionTime, status, initiatedAtBlock, itx, executedAtBlock, et,
              cancelledAtBlock, ct⟩
            s.recoveries) }

/-- `addRecoveryApproval`: insert with the duplicate swallowed; the store
trigger recounts `approval_count` on a real insert. -/
def addRecoveryApproval (env : Env) (walletAddress recoveryHash guardianAddress : Str)
    (approvedAtBlock : Int) (approvedAtTx : Str) (s : Store) : Except Str Store :=
  withOk (vAddr env walletAddress) fun w =>
  withOk (vAddr env guardianAddress) fun g =>
  withOk (vB32 recoveryHash) fun rh =>
  withOk (vB32 approvedAtTx) fun atx =>
  if s.recoveryApprovals.any
      (approvalConflict ⟨w, rh, g, approvedAtBlock, atx, true, none, none⟩) then
    .ok s
  else
    .ok { s with
      recoveryApprovals :=
        s.recoveryApprovals ++ [⟨w, rh, g, approvedAtBlock, atx, true, none, none⟩]
      recoveries := (applyApprovalTrigger w rh
        (s.recoveryApprovals ++ [⟨w, rh, g, approvedAtBlock, atx, true, none, none⟩])
        s.recoveries) }

/-- `revokeRecoveryApproval`. -/
def revokeRecoveryApproval (env : Env) (walletAddress recoveryHash guardianAddress : Str)
    (revokedAtBlock : Int) (revokedAtTx : Str) (s : Store) : Except Str Store :=
  withOk (vAddr env walletAddress) fun w =>
  withOk (vAddr env guardianAddress) fun g =>
  withOk (vB32 recoveryHash) fun rh =>
  withOk (vB32 revokedAtTx) fun rtx =>
  .ok { s with
    recoveryApprovals := (updateWhere
      (fun r => r.walletAddress == w && r.recoveryHash == rh &&
        r.guardianAddress == g && r.isActive)
      (fun r => { r with
        isActive := false
        revokedAtBlock := some revokedAtBlock
        revokedAtTx := some rtx })
      s.recoveryApprovals)
    recoveries :=
      (if s.recoveryApprovals.any
          (fun r => r.walletAddress == w && r.recoveryHash == rh &&
            r.guardianAddress == g && r.isActive) then
        applyApprovalTrigger w rh
          (updateWhere
            (fun r => r.walletAddress == w && r.recoveryHash == rh &&
              r.guardianAddress == g && r.isActive)
            (fun r => { r with
              isActive := false
              revokedAtBlock := some revokedAtBlock
              revokedAtTx := some rtx })
            s.recoveryApprovals)
          s.recoveries
      else s.recoveries) }

/-- `updateRecoveryStatus`. -/
def updateRecoveryStatus (env : Env) (walletAddress recoveryHash : Str) (status : TxStatus)
    (blockNumber : Int) (txHash : Str) (s : Store) : Except Str Store :=
  withOk (vAddr env walletAddress) fun w =>
  withOk (vB32 recoveryHash) fun rh =>
  withOk (vB32 txHash) fun th =>
  .ok { s with recoveries :=
    (updateWhere (fun r => r.walletAddress == w && r.recoveryHash == rh)
      (fun r =>
        if status = .executed then
          { r with
            status := status
            executedAtBlock := some blockNumber
            executedAtTx := some th }
        else
          { r with
            status := status
            cancelledAtBlock := some blockNumber
            cancelledAtTx := some th })
      s.recoveries) }

/-- `getRecoveryConfig`: a read returning threshold and recovery period,
`none` when the wallet has no config row (PGRST116 swallowed). -/
def getRecoveryConfig (env : Env) (walletAddress : Str) (s : Store) :
    Except Str (Option (Int × Int)) :=
  withOk (vAddr env walletAddress) fun w =>
  .ok ((s.recoveryConfigs.find? fun r => r.walletAddress == w).map
    fun r => (r.threshold, r.recoveryPeriod))

/-- `upsertDailyLimit`: full-column upsert keyed on the wallet. -/
def upsertDailyLimit (env : Env) (walletAddress dailyLimit spentToday lastResetDay : Str)
    (s : Store) : Except Str Store :=
  withOk (vAddr env walletAddress) fun w =>
  .ok { s with dailyLimits :=
    (upsertRows (fun row r => row.walletAddress == r.walletAddress) (fun row _ => row)
      ⟨w, dailyLimit, spentToday, lastResetDay⟩ s.dailyLimits) }

/-- `resetDailyLimit`. -/
def resetDailyLimit (env : Env) (walletAddress : Str) (s : Store) : Except Str Store :=
  withOk (vAddr env walletAddress) fun w =>
  .ok { s with dailyLimits :=
    (updateWhere (fun r => r.walletAddress == w)
      (fun r => { r with spentToday := str "0", lastResetDay := env.todayStr })
      s.dailyLimits) }

/-- `updateDailyLimitSpent`: read the configured limit (no row: return),
compute `spent = remaining > limit ? 0 : limit - remaining` over BigInt
strings, and write it back. -/
def updateDailyLimitSpent (env : Env) (walletAddress remainingLimit : Str) (s : Store) :
    Except Str Store :=
  withOk (vAddr env walletAddress) fun w =>
  match s.dailyLimits.find? fun r => r.walletAddress == w with
  | none => .ok s
  | some row =>
    match env.bigIntOf row.dailyLimit, env.bigIntOf remainingLimit with
    | some dl, some rem =>
      .ok { s with dailyLimits :=
        (updateWhere (fun r => r.walletAddress == w)
          (fun r => { r with spentToday := if rem > dl then str "0" else env.decString (dl - rem) })
          s.dailyLimits) }
    | _, _ => .error (str "BigInt conversion failed")

/-- `addWhitelistEntry`: insert with the duplicate swallowed. -/
def addWhitelistEntry (env : Env) (walletAddress whitelistedAddress limitAmount : Str)
    (addedAtBlock : Int) (addedAtTx : Str) (s : Store) : Except Str Store :=
  withOk (vAddr env walletAddress) fun w =>
  withOk (vAddr env whitelistedAddress) fun wa =>
  withOk (vB32 addedAtTx) fun tx =>
  .ok { s with whitelistEntries :=
    (insertRows whitelistConflict ⟨w, wa, limitAmount, addedAtBlock, tx, true, none, none⟩
      s.whitelistEntries) }

/-- `removeWhitelistEntry`. -/
def removeWhitelistEntry (env : Env) (walletAddress whitelistedAddress : Str)
    (removedAtBlock : Int) (removedAtTx : Str) (s : Store) : Except Str Store :=
  withOk (vAddr env walletAddress) fun w =>
  withOk (vAddr env whitelistedAddress) fun wa =>
  withOk (vB32 removedAtTx) fun tx =>
  .ok { s with whitelistEntries :=
    (updateWhere
      (fun r => r.walletAddress == w && r.whitelistedAddress == wa && r.isActive)
      (fun r => { r with
        isActive := false
        removedAtBlock := some removedAtBlock
        removedAtTx := some tx })
      s.whitelistEntries) }

/-- `addModuleTransaction`: plain append — the table has no unique key and
no duplicate is swallowed. -/
def addModuleTransaction (env : Env) (walletAddress moduleType moduleAddress toAddress
    value : Str) (remainingLimit : Option Str) (executedAtBlock : Int)
    (executedAtTx : Str) (s : Store) : Except Str Store :=
  withOk (vAddr env walletAddress) fun w =>
  withOk (vAddr env moduleAddress) fun m =>
  withOk (vAddr env toAddress) fun toA =>
  withOk (vB32 executedAtTx) fun tx =>
  .ok { s with moduleTransactions :=
    s.moduleTransactions ++ [⟨w, moduleType, m, toA, value, remainingLimit, executedAtBlock, tx⟩] }

/-- `addDeposit`: insert with the duplicate swallowed (unique on
(wallet, depositedAtTx)). -/
def addDeposit (env : Env) (walletAddress senderAddress amount : Str)
    (depositedAtBlock : Int) (depositedAtTx : Str) (s : Store) : Except Str Store :=
  withOk (vAddr env walletAddress) fun w =>
  withOk (vAddr env senderAddress) fun sa =>
  withOk (vB32 depositedAtTx) fun tx =>
  .ok { s with deposits :=
    (insertRows depositConflict ⟨w, sa, amount, depositedAtBlock, tx⟩ s.deposits) }

-- ============================================
-- src/events/index.ts : decoded events and their handlers
-- ============================================

/-- A decoded event as the handlers consume it: the emitting address, the
block metadata, and the typed argument payload of each event kind (numeric
args carried as the values the handler parses them into; string args kept
as strings). -/
inductive Event where
  | walletCreated (address : Str) (blockNumber : Int) (transactionHash : Str)
      (wallet : Str) (owners : List Str) (threshold : Int)
  | walletRegistered (address : Str) (blockNumber : Int) (transactionHash : Str)
      (wallet : Str)
  | transactionProposed (address : Str) (blockNumber : Int) (transactionHash : Str)
      (txHash proposer toAddress value data : Str)
  | transactionApproved (address : Str) (blockNumber : Int) (transactionHash : Str)
      (txHash approver : Str)
  | approvalRevoked (address : Str) (blockNumber : Int) (transactionHash : Str)
      (txHash owner : Str)
  | transactionExecuted (address : Str) (blockNumber : Int) (transactionHash : Str)
      (txHash executor : Str)
  | transactionCancelled (address : Str) (blockNumber : Int) (transactionHash : Str)
      (txHash canceller : Str)
  | ownerAdded (address : Str) (blockNumber : Int) (transactionHash : Str)
      (owner : Str)
  | ownerRemoved (address : Str) (blockNumber : Int) (transactionHash : Str)
      (owner : Str)
  | thresholdChanged (address : Str) (blockNumber : Int) (transactionHash : Str)
      (threshold : Int)
  | moduleEnabled (address : Str) (blockNumber : Int) (transactionHash : Str)
      (moduleAddress : Str)
  | moduleDisabled (address : Str) (blockNumber : Int) (transactionHash : Str)
      (moduleAddress : Str)
  | received (address : Str) (blockNumber : Int) (transactionHash : Str)
      (sender amount : Str)
  | recoverySetup (address : Str) (blockNumber : Int) (transactionHash : Str)
      (wallet : Str) (guardians : List Str) (threshold recoveryPeriod : Int)
  | recoveryInitiated (address : Str) (blockNumber : Int) (transactionHash : Str)
      (wallet recoveryHash : Str) (newOwners : List Str) (newThreshold : Int)
      (initiator : Str)
  | recoveryApproved (address : Str) (blockNumber : Int) (transactionHash : Str)
      (wallet recoveryHash guardian : Str)
  | recoveryApprovalRevoked (address : Str) (blockNumber : Int) (transactionHash : Str)
      (wallet recoveryHash guardian : Str)
  | recoveryExecuted (address : Str) (blockNumber : Int) (transactionHash : Str)
      (wallet recoveryHash : Str)
  | recoveryCancelled (address : Str) (blockNumber : Int) (transactionHash : Str)
      (wallet recoveryHash : Str)
  | dailyLimitSet (address : Str) (blockNumber : Int) (transactionHash : Str)
      (wallet limit : Str)
  | dailyLimitReset (address : Str) (blockNumber : Int) (transactionHash : Str)
      (wallet : Str)
  | dailyLimitTransactionExecuted (address : Str) (blockNumber : Int)
      (transactionHash : Str) (wallet toAddress value remainingLimit : Str)
  | addressWhitelisted (address : Str) (blockNumber : Int) (transactionHash : Str)
      (wallet addr limit : Str)
  | addressRemovedFromWhitelist (address : Str) (blockNumber : Int)
      (transactionHash : Str) (wallet addr : Str)
  | whitelistTransactionExecuted (address : Str) (blockNumber : Int)
      (transactionHash : Str) (wallet toAddress value : Str)
deriving DecidableEq, Repr

/-- `handleWalletCreated`: upsert the wallet, then batch-insert the initial
owner set. -/
def handleWalletCreated (env : Env) (blockNumber : Int) (transactionHash wallet : Str)
    (owners : List Str) (threshold : Int) (s : Store) : Except Str Store :=
  onOk (upsertWallet env wallet none threshold (owners.length : Int) blockNumber
      transactionHash s) fun s1 =>
    addOwnersBatch env
      (owners.map fun owner => ⟨wallet, owner, blockNumber, transactionHash⟩) s1

/-- `handleWalletRegistered`: read `getOwners()` and `threshold()` from the
contract (both RPC calls must succeed), decode the ABI address array and
the hex threshold, then index wallet and owners as in the factory path.
(`parseInt` returning `NaN` is modelled as a failure, as the store rejects
a NaN integer column.) -/
def handleWalletRegistered (env : Env) (blockNumber : Int) (transactionHash wallet : Str)
    (s : Store) : Except Str Store :=
  onSome (env.getOwnersResult wallet) (fun owners =>
  onSome (env.thresholdResult wallet) (fun thresholdHex =>
  onOk (decodeAddressArray owners) fun ownerAddresses =>
  onSome (jsParseIntHex thresholdHex) (fun thresholdValue =>
  onOk (upsertWallet env wallet none thresholdValue
      (ownerAddresses.length : Int) blockNumber transactionHash s) fun s1 =>
    addOwnersBatch env
      (ownerAddresses.map fun owner => ⟨wallet, owner, blockNumber, transactionHash⟩)
      s1)
    (str "threshold is NaN"))
    (str "Failed to query wallet contract during registration"))
    (str "Failed to query wallet contract during registration")

/-- `handleTransactionProposed`: decode the calldata, then upsert the
pending transaction with `confirmationCount = 0`. -/
def handleTransactionProposed (env : Env) (address : Str) (blockNumber : Int)
    (transactionHash txHash proposer toAddress value data : Str) (s : Store) :
    Except Str Store :=
  onOk (decodeCalldata env.decodeCtx toAddress (if data.isEmpty then str "0x" else data)
      value) fun decoded =>
    upsertTransaction env address txHash toAddress value
      (if data.isEmpty then str "0x" else data)
      decoded.transactionType decoded.decodedParams .pending 0 proposer
      blockNumber transactionHash none none none none s

/-- `handleTransactionApproved`. -/
def handleTransactionApproved (env : Env) (address : Str) (blockNumber : Int)
    (transactionHash txHash approver : Str) (s : Store) : Except Str Store :=
  addConfirmation env address txHash approver blockNumber transactionHash s

/-- `handleApprovalRevoked`. -/
def handleApprovalRevoked (env : Env) (address : Str) (blockNumber : Int)
    (transactionHash txHash owner : Str) (s : Store) : Except Str Store :=
  revokeConfirmation env address txHash owner blockNumber transactionHash s

/-- `handleTransactionExecuted`. -/
def handleTransactionExecuted (env : Env) (address : Str) (blockNumber : Int)
    (transactionHash txHash : Str) (s : Store) : Except Str Store :=
  updateTransactionStatus env address txHash .executed blockNumber transactionHash s

/-- `handleTransactionCancelled`. -/
def handleTransactionCancelled (env : Env) (address : Str) (blockNumber : Int)
    (transactionHash txHash : Str) (s : Store) : Except Str Store :=
  updateTransactionStatus env address txHash .cancelled blockNumber transactionHash s

/-- `handleOwnerAdded`: insert the owner row (duplicate swallowed), then
*unconditionally* increment the wallet's owner count server-side. -/
def handleOwnerAdded (env : Env) (address : Str) (blockNumber : Int)
    (transactionHash owner : Str) (s : Store) : Except Str Store :=
  onOk (addOwner env address owner blockNumber transactionHash s) fun s1 =>
    updateWalletOwnerCount env address 1 s1

/-- `handleOwnerRemoved`: deactivate the owner row, then unconditionally
decrement the wallet's owner count. -/
def handleOwnerRemoved (env : Env) (address : Str) (blockNumber : Int)
    (transactionHash owner : Str) (s : Store) : Except Str Store :=
  onOk (removeOwner env address owner blockNumber transactionHash s) fun s1 =>
    updateWalletOwnerCount env address (-1) s1

/-- `handleThresholdChanged`. -/
def handleThresholdChanged (env : Env) (address : Str) (threshold : Int) (s : Store) :
    Except Str Store :=
  updateWalletThreshold env address threshold s

/-- `handleModuleEnabled`. -/
def handleModuleEnabled (env : Env) (address : Str) (blockNumber : Int)
    (transactionHash moduleAddress : Str) (s : Store) : Except Str Store :=
  addModule env address moduleAddress blockNumber transactionHash s

/-- `handleModuleDisabled`. -/
def handleModuleDisabled (env : Env) (address : Str) (blockNumber : Int)
    (transactionHash moduleAddress : Str) (s : Store) : Except Str Store :=
  disableModule env address moduleAddress blockNumber transactionHash s

/-- `handleReceived`. -/
def handleReceived (env : Env) (address : Str) (blockNumber : Int)
    (transactionHash sender amount : Str) (s : Store) : Except Str Store :=
  addDeposit env address sender amount blockNumber transactionHash s

/-- `handleRecoverySetup`. -/
def handleRecoverySetup (env : Env) (blockNumber : Int) (transactionHash wallet : Str)
    (guardians : List Str) (threshold recoveryPeriod : Int) (s : Store) :
    Except Str Store :=
  upsertRecoveryConfig env wallet guardians threshold recoveryPeriod blockNumber
    transactionHash s

/-- `config?.threshold || 1`: the required threshold defaults to 1 when no
config row exists (and a stored threshold of 0 is also mapped to 1 by the
JavaScript `||`). -/
def requiredThresholdOf : Option (Int × Int) → Int
  | some c => if c.1 = 0 then 1 else c.1
  | none => 1

/-- `config?.recoveryPeriod || 0`: the recovery period defaults to 0 when
no config row exists. -/
def recoveryPeriodOf : Option (Int × Int) → Int
  | some c => c.2
  | none => 0

/-- The base of `executionTime`: the block timestamp read over RPC, or the
wall clock when that read fails (the fallback is logged, not silent). -/
def executionTimeBase (env : Env) (blockNumber : Int) : Int :=
  match env.blockTimestampOf blockNumber with
  | some ts => ts
  | none => env.nowSeconds

/-- `handleRecoveryInitiated`: read the recovery config (no row is fine:
`recoveryPeriod` defaults to 0 via `|| 0`, `requiredThreshold` to 1 via
`|| 1`, which also maps a stored threshold of 0 to 1), compute
`executionTime` from the block timestamp with a wall-clock fallback when
the RPC read fails, and upsert the pending recovery with
`approvalCount = 0`. -/
def handleRecoveryInitiated (env : Env) (blockNumber : Int)
    (transactionHash wallet recoveryHash : Str) (newOwners : List Str)
    (newThreshold : Int) (initiator : Str) (s : Store) : Except Str Store :=
  onOk (getRecoveryConfig env wallet s) fun cfg =>
    upsertRecovery env wallet recoveryHash newOwners newThreshold initiator 0
      (requiredThresholdOf cfg)
      (executionTimeBase env blockNumber + recoveryPeriodOf cfg)
      .pending blockNumber transactionHash none none none none s

/-- `handleRecoveryApproved`. -/
def handleRecoveryApproved (env : Env) (blockNumber : Int)
    (transactionHash wallet recoveryHash guardian : Str) (s : Store) :
    Except Str Store :=
  addRecoveryApproval env wallet recoveryHash guardian blockNumber transactionHash s

/-- `handleRecoveryApprovalRevoked`. -/
def handleRecoveryApprovalRevoked (env : Env) (blockNumber : Int)
    (transactionHash wallet recoveryHash guardian : Str) (s : Store) :
    Except Str Store :=
  revokeRecoveryApproval env wallet recoveryHash guardian blockNumber transactionHash s

/-- `handleRecoveryExecuted`. -/
def handleRecoveryExecuted (env : Env) (blockNumber : Int)
    (transactionHash wallet recoveryHash : Str) (s : Store) : Except Str Store :=
  updateRecoveryStatus env wallet recoveryHash .executed blockNumber transactionHash s

/-- `handleRecoveryCancelled`. -/
def handleRecoveryCancelled (env : Env) (blockNumber : Int)
    (transactionHash wallet recoveryHash : Str) (s : Store) : Except Str Store :=
  updateRecoveryStatus env wallet recoveryHash .cancelled blockNumber transactionHash s

/-- `handleDailyLimitSet`: upsert with `spentToday = "0"` and today's
date. -/
def handleDailyLimitSet (env : Env) (wallet limit : Str) (s : Store) :
    Except Str Store :=
  upsertDailyLimit env wallet limit (str "0") env.todayStr s

/-- `handleDailyLimitReset`. -/
def handleDailyLimitReset (env : Env) (wallet : Str) (s : Store) : Except Str Store :=
  resetDailyLimit env wallet s

/-- `handleDailyLimitTransactionExecuted`: append the module-transaction
history row, then update `spentToday` from the reported remaining limit. -/
def handleDailyLimitTransactionExecuted (env : Env) (address : Str) (blockNumber : Int)
    (transactionHash wallet toAddress value remainingLimit : Str) (s : Store) :
    Except Str Store :=
  onOk (addModuleTransaction env wallet (str "daily_limit") address toAddress value
      (some remainingLimit) blockNumber transactionHash s) fun s1 =>
    updateDailyLimitSpent env wallet remainingLimit s1

/-- `handleAddressWhitelisted`. -/
def handleAddressWhitelisted (env : Env) (blockNumber : Int)
    (transactionHash wallet addr limit : Str) (s : Store) : Except Str Store :=
  addWhitelistEntry env wallet addr limit blockNumber transactionHash s

/-- `handleAddressRemovedFromWhitelist`. -/
def handleAddressRemovedFromWhitelist (env : Env) (blockNumber : Int)
    (transactionHash wallet addr : Str) (s : Store) : Except Str Store :=
  removeWhitelistEntry env wallet addr blockNumber transactionHash s

/-- `handleWhitelistTransactionExecuted`: append-only history row. -/
def handleWhitelistTransactionExecuted (env : Env) (address : Str) (blockNumber : Int)
    (transactionHash wallet toAddress value : Str) (s : Store) : Except Str Store :=
  addModuleTransaction env wallet (str "whitelist") address toAddress value none
    blockNumber transactionHash s

/-- `handleEvent`: the per-kind dispatch of `src/events/index.ts`. -/
def handleEvent (env : Env) (e : Event) (s : Store) : Except Str Store :=
  match e with
  | .walletCreated _ bn th w owners threshold =>
    handleWalletCreated env bn th w owners threshold s
  | .walletRegistered _ bn th w => handleWalletRegistered env bn th w s
  | .transactionProposed a bn th txh proposer toA value data =>
    handleTransactionProposed env a bn th txh proposer toA value data s
  | .transactionApproved a bn th txh approver =>
    handleTransactionApproved env a bn th txh approver s
  | .approvalRevoked a bn th txh owner => handleApprovalRevoked env a bn th txh owner s
  | .transactionExecuted a bn th txh _ => handleTransactionExecuted env a bn th txh s
  | .transactionCancelled a bn th txh _ => handleTransactionCancelled env a bn th txh s
  | .ownerAdded a bn th owner => handleOwnerAdded env a bn th owner s
  | .ownerRemoved a bn th owner => handleOwnerRemoved env a bn th owner s
  | .thresholdChanged a _ _ threshold => handleThresholdChanged env a threshold s
  | .moduleEnabled a bn th m => handleModuleEnabled env a bn th m s
  | .moduleDisabled a bn th m => handleModuleDisabled env a bn th m s
  | .received a bn th sender amount => handleReceived env a bn th sender amount s
  | .recoverySetup _ bn th w gs threshold period =>
    handleRecoverySetup env bn th w gs threshold period s
  | .recoveryInitiated _ bn th w rh owners nt initiator =>
    handleRecoveryInitiated env bn th w rh owners nt initiator s
  | .recoveryApproved _ bn th w rh g => handleRecoveryApproved env bn th w rh g s
  | .recoveryApprovalRevoked _ bn th w rh g =>
    handleRecoveryApprovalRevoked env bn th w rh g s
  | .recoveryExecuted _ bn th w rh => handleRecoveryExecuted env bn th w rh s
  | .recoveryCancelled _ bn th w rh => handleRecoveryCancelled env bn th w rh s
  | .dailyLimitSet _ _ _ w limit => handleDailyLimitSet env w limit s
  | .dailyLimitReset _ _ _ w => handleDailyLimitReset env w s
  | .dailyLimitTransactionExecuted a bn th w toA value rem =>
    handleDailyLimitTransactionExecuted env a bn th w toA value rem s
  | .addressWhitelisted _ bn th w addr limit =>
    handleAddressWhitelisted env bn th w addr limit s
  | .addressRemovedFromWhitelist _ bn th w addr =>
    handleAddressRemovedFromWhitelist env bn th w addr s
  | .whitelistTransactionExecuted a bn th w toA value =>
    handleWhitelistTransactionExecuted env a bn th w toA value s

-- ============================================
-- Idempotence of the gateway operations (toward C3)
-- ============================================

theorem updateWalletThreshold_idem (env : Env) (address : Str) (threshold : Int)
    (s s₂ : Store) (h : updateWalletThreshold env address threshold s = .ok s₂) :
    updateWalletThreshold env address threshold s₂ = .ok s₂ := by
  unfold updateWalletThreshold at h ⊢
  obtain ⟨a, ha, h⟩ := withOk_ok h
  rw [ha, withOk]
  simp only [Except.ok.injEq] at h
  subst h
  exact congrArg (fun t => Except.ok { s with wallets := t })
    (updateWhere_const_idem (fun r : WalletRow => r.address == a)
      (fun r => { r with threshold := threshold }) (fun r hr => ⟨hr, rfl⟩) s.wallets)

theorem ownerConflict_refl (r : OwnerRow) : ownerConflict r r = true := by
  simp [ownerConflict]

theorem confConflict_refl (r : ConfRow) : confConflict r r = true := by
  simp [confConflict]

theorem approvalConflict_refl (r : ApprovalRow) : approvalConflict r r = true := by
  simp [approvalConflict]

theorem whitelistConflict_refl (r : WhitelistRow) : whitelistConflict r r = true := by
  simp [whitelistConflict]

theorem depositConflict_refl (r : DepositRow) : depositConflict r r = true := by
  simp [depositConflict]

theorem upsertWallet_idem (env : Env) (address : Str) (name : Option Str)
    (threshold ownerCount createdAtBlock : Int) (createdAtTx : Str) (s s₂ : Store)
    (h : upsertWallet env address name threshold ownerCount createdAtBlock createdAtTx s
      = .ok s₂) :
    upsertWallet env address name threshold ownerCount createdAtBlock createdAtTx s₂
      = .ok s₂ := by
  unfold upsertWallet at h ⊢
  obtain ⟨a, ha, h⟩ := withOk_ok h
  obtain ⟨c, hc, h⟩ := withOk_ok h
  rw [ha, withOk, hc, withOk]
  simp only [Except.ok.injEq] at h
  subst h
  exact congrArg (fun t => Except.ok { s with wallets := t })
    (upsertRows_idem (fun row r => row.address == r.address) (fun row _ => row)
      ⟨a, name, threshold, ownerCount, createdAtBlock, c⟩ (by simp)
      (fun r _ => by simp) (fun r => rfl) rfl s.wallets)

theorem addOwner_idem (env : Env) (walletAddress ownerAddress : Str) (addedAtBlock : Int)
    (addedAtTx : Str) (s s₂ : Store)
    (h : addOwner env walletAddress ownerAddress addedAtBlock addedAtTx s = .ok s₂) :
    addOwner env walletAddress ownerAddress addedAtBlock addedAtTx s₂ = .ok s₂ := by
  unfold addOwner at h ⊢
  obtain ⟨w, hw, h⟩ := withOk_ok h
  obtain ⟨o, ho, h⟩ := withOk_ok h
  obtain ⟨tx, htx, h⟩ := withOk_ok h
  rw [hw, withOk, ho, withOk, htx, withOk]
  simp only [Except.ok.injEq] at h
  subst h
  exact congrArg (fun t => Except.ok { s with walletOwners := t })
    (insertRows_idem ownerConflict ⟨w, o, addedAtBlock, tx, true, none, none⟩
      (ownerConflict_refl _) s.walletOwners)

theorem addOwnersBatch_idem (env : Env) (owners : List OwnerInput) (s s₂ : Store)
    (h : addOwnersBatch env owners s = .ok s₂) :
    addOwnersBatch env owners s₂ = .ok s₂ := by
  unfold addOwnersBatch at h ⊢
  by_cases he : owners.isEmpty
  · rw [if_pos he] at h ⊢
  · rw [if_neg he] at h ⊢
    obtain ⟨records, hm, h⟩ := onOk_ok h
    rw [hm, onOk]
    simp only [Except.ok.injEq] at h
    subst h
    exact congrArg (fun t => Except.ok { s with walletOwners := t })
      (insertBatch_idem ownerConflict records (fun r _ => ownerConflict_refl r)
        s.walletOwners)

theorem removeOwner_idem (env : Env) (walletAddress ownerAddress : Str)
    (removedAtBlock : Int) (removedAtTx : Str) (s s₂ : Store)
    (h : removeOwner env walletAddress ownerAddress removedAtBlock removedAtTx s = .ok s₂) :
    removeOwner env walletAddress ownerAddress removedAtBlock removedAtTx s₂ = .ok s₂ := by
  unfold removeOwner at h ⊢
  obtain ⟨w, hw, h⟩ := withOk_ok h
  obtain ⟨o, ho, h⟩ := withOk_ok h
  obtain ⟨tx, htx, h⟩ := withOk_ok h
  rw [hw, withOk, ho, withOk, htx, withOk]
  simp only [Except.ok.injEq] at h
  subst h
  exact congrArg (fun t => Except.ok { s with walletOwners := t })
    (updateWhere_deact_idem
      (fun r : OwnerRow => r.walletAddress == w && r.ownerAddress == o && r.isActive)
      (fun r => { r with
        isActive := false
        removedAtBlock := some removedAtBlock
        removedAtTx := some tx })
      (fun r _ => by simp) s.walletOwners)

theorem addModule_idem (env : Env) (walletAddress moduleAddress : Str)
    (enabledAtBlock : Int) (enabledAtTx : Str) (s s₂ : Store)
    (h : addModule env walletAddress moduleAddress enabledAtBlock enabledAtTx s = .ok s₂) :
    addModule env walletAddress moduleAddress enabledAtBlock enabledAtTx s₂ = .ok s₂ := by
  unfold addModule at h ⊢
  obtain ⟨w, hw, h⟩ := withOk_ok h
  obtain ⟨m, hm, h⟩ := withOk_ok h
  obtain ⟨tx, htx, h⟩ := withOk_ok h
  rw [hw, withOk, hm, withOk, htx, withOk]
  simp only [Except.ok.injEq] at h
  subst h
  exact congrArg (fun t => Except.ok { s with walletModules := t })
    (upsertRows_idem
      (fun row r => row.walletAddress == r.walletAddress && row.moduleAddress == r.moduleAddress)
      (fun row r => { r with
        enabledAtBlock := row.enabledAtBlock
        enabledAtTx := row.enabledAtTx
        isActive := true })
      ⟨w, m, enabledAtBlock, tx, true, none, none⟩ (by simp)
      (fun r hr => hr) (fun r => rfl) rfl s.walletModules)

theorem disableModule_idem (env : Env) (walletAddress moduleAddress : Str)
    (disabledAtBlock : Int) (disabledAtTx : Str) (s s₂ : Store)
    (h : disableModule env walletAddress moduleAddress disabledAtBlock disabledAtTx s
      = .ok s₂) :
    disableModule env walletAddress moduleAddress disabledAtBlock disabledAtTx s₂
      = .ok s₂ := by
  unfold disableModule at h ⊢
  obtain ⟨w, hw, h⟩ := withOk_ok h
  obtain ⟨m, hm, h⟩ := withOk_ok h
  obtain ⟨tx, htx, h⟩ := withOk_ok h
  rw [hw, withOk, hm, withOk, htx, withOk]
  simp only [Except.ok.injEq] at h
  subst h
  exact congrArg (fun t => Except.ok { s with walletModules := t })
    (updateWhere_deact_idem
      (fun r : ModuleRow => r.walletAddress == w && r.moduleAddress == m && r.isActive)
      (fun r => { r with
        isActive := false
        disabledAtBlock := some disabledAtBlock
        disabledAtTx := some tx })
      (fun r _ => by simp) s.walletModules)

theorem addDeposit_idem (env : Env) (walletAddress senderAddress amount : Str)
    (depositedAtBlock : Int) (depositedAtTx : Str) (s s₂ : Store)
    (h : addDeposit env walletAddress senderAddress amount depositedAtBlock depositedAtTx s
      = .ok s₂) :
    addDeposit env walletAddress senderAddress amount depositedAtBlock depositedAtTx s₂
      = .ok s₂ := by
  unfold addDeposit at h ⊢
  obtain ⟨w, hw, h⟩ := withOk_ok h
  obtain ⟨sa, hsa, h⟩ := withOk_ok h
  obtain ⟨tx, htx, h⟩ := withOk_ok h
  rw [hw, withOk, hsa, withOk, htx, withOk]
  simp only [Except.ok.injEq] at h
  subst h
  exact congrArg (fun t => Except.ok { s with deposits := t })
    (insertRows_idem depositConflict ⟨w, sa, amount, depositedAtBlock, tx⟩
      (depositConflict_refl _) s.deposits)

theorem addWhitelistEntry_idem (env : Env) (walletAddress whitelistedAddress
    limitAmount : Str) (addedAtBlock : Int) (addedAtTx : Str) (s s₂ : Store)
    (h : addWhitelistEntry env walletAddress whitelistedAddress limitAmount addedAtBlock
      addedAtTx s = .ok s₂) :
    addWhitelistEntry env walletAddress whitelistedAddress limitAmount addedAtBlock
      addedAtTx s₂ = .ok s₂ := by
  unfold addWhitelistEntry at h ⊢
  obtain ⟨w, hw, h⟩ := withOk_ok h
  obtain ⟨wa, hwa, h⟩ := withOk_ok h
  obtain ⟨tx, htx, h⟩ := withOk_ok h
  rw [hw, withOk, hwa, withOk, htx, withOk]
  simp only [Except.ok.injEq] at h
  subst h
  exact congrArg (fun t => Except.ok { s with whitelistEntries := t })
    (insertRows_idem whitelistConflict
      ⟨w, wa, limitAmount, addedAtBlock, tx, true, none, none⟩
      (whitelistConflict_refl _) s.whitelistEntries)

theorem removeWhitelistEntry_idem (env : Env) (walletAddress whitelistedAddress : Str)
    (removedAtBlock : Int) (removedAtTx : Str) (s s₂ : Store)
    (h : removeWhitelistEntry env walletAddress whitelistedAddress removedAtBlock
      removedAtTx s = .ok s₂) :
    removeWhitelistEntry env walletAddress whitelistedAddress removedAtBlock
      removedAtTx s₂ = .ok s₂ := by
  unfold removeWhitelistEntry at h ⊢
  obtain ⟨w, hw, h⟩ := withOk_ok h
  obtain ⟨wa, hwa, h⟩ := withOk_ok h
  obtain ⟨tx, htx, h⟩ := withOk_ok h
  rw [hw, withOk, hwa, withOk, htx, withOk]
  simp only [Except.ok.injEq] at h
  subst h
  exact congrArg (fun t => Except.ok { s with whitelistEntries := t })
    (updateWhere_deact_idem
      (fun r : WhitelistRow =>
        r.walletAddress == w && r.whitelistedAddress == wa && r.isActive)
      (fun r => { r with
        isActive := false
        removedAtBlock := some removedAtBlock
        removedAtTx := some tx })
      (fun r _ => by simp) s.whitelistEntries)

theorem upsertDailyLimit_idem (env : Env) (walletAddress dailyLimit spentToday
    lastResetDay : Str) (s s₂ : Store)
    (h : upsertDailyLimit env walletAddress dailyLimit spentToday lastResetDay s = .ok s₂) :
    upsertDailyLimit env walletAddress dailyLimit spentToday lastResetDay s₂ = .ok s₂ := by
  unfold upsertDailyLimit at h ⊢
  obtain ⟨w, hw, h⟩ := withOk_ok h
  rw [hw, withOk]
  simp only [Except.ok.injEq] at h
  subst h
  exact congrArg (fun t => Except.ok { s with dailyLimits := t })
    (upsertRows_idem (fun row r => row.walletAddress == r.walletAddress)
      (fun row _ => row) ⟨w, dailyLimit, spentToday, lastResetDay⟩ (by simp)
      (fun r _ => by simp) (fun r => rfl) rfl s.dailyLimits)

theorem resetDailyLimit_idem (env : Env) (walletAddress : Str) (s s₂ : Store)
    (h : resetDailyLimit env walletAddress s = .ok s₂) :
    resetDailyLimit env walletAddress s₂ = .ok s₂ := by
  unfold resetDailyLimit at h ⊢
  obtain ⟨w, hw, h⟩ := withOk_ok h
  rw [hw, withOk]
  simp only [Except.ok.injEq] at h
  subst h
  exact congrArg (fun t => Except.ok { s with dailyLimits := t })
    (updateWhere_const_idem (fun r : DailyLimitRow => r.walletAddress == w)
      (fun r => { r with spentToday := str "0", lastResetDay := env.todayStr })
      (fun r hr => ⟨hr, rfl⟩) s.dailyLimits)

theorem upsertTransaction_idem (env : Env) (walletAddress txHash toAddress value
    data : Str) (transactionType : TransactionType) (decodedParams : Option DecodedParams)
    (status : TxStatus) (confirmationCount : Int) (submittedBy : Str)
    (submittedAtBlock : Int) (submittedAtTx : Str) (executedAtBlock : Option Int)
    (executedAtTx : Option Str) (cancelledAtBlock : Option Int)
    (cancelledAtTx : Option Str) (s s₂ : Store)
    (h : upsertTransaction env walletAddress txHash toAddress value data transactionType
      decodedParams status confirmationCount submittedBy submittedAtBlock submittedAtTx
      executedAtBlock executedAtTx cancelledAtBlock cancelledAtTx s = .ok s₂) :
    upsertTransaction env walletAddress txHash toAddress value data transactionType
      decodedParams status confirmationCount submittedBy submittedAtBlock submittedAtTx
      executedAtBlock executedAtTx cancelledAtBlock cancelledAtTx s₂ = .ok s₂ := by
  unfold upsertTransaction at h ⊢
  obtain ⟨w, hw, h⟩ := withOk_ok h
  obtain ⟨toA, hto, h⟩ := withOk_ok h
  obtain ⟨sb, hsb, h⟩ := withOk_ok h
  obtain ⟨th, hth, h⟩ := withOk_ok h
  obtain ⟨st, hst, h⟩ := withOk_ok h
  obtain ⟨et, het, h⟩ := onOk_ok h
  obtain ⟨ct, hct, h⟩ := onOk_ok h
  rw [hw, withOk, hto, withOk, hsb, withOk, hth, withOk, hst, withOk, het, onOk,
    hct, onOk]
  simp only [Except.ok.injEq] at h
  subst h
  exact congrArg (fun t => Except.ok { s with transactions := t })
    (upsertRows_idem
      (fun row r => row.walletAddress == r.walletAddress && row.txHash == r.txHash)
      (fun row _ => row)
      ⟨w, th, toA, value, data, transactionType, decodedParams, status,
        confirmationCount, sb, submittedAtBlock, st, executedAtBlock, et,
        cancelledAtBlock, ct⟩
      (by simp) (fun r _ => by simp) (fun r => rfl) rfl s.transactions)

theorem updateTransactionStatus_idem (env : Env) (walletAddress txHash : Str)
    (status : TxStatus) (blockNumber : Int) (chainTxHash : Str) (s s₂ : Store)
    (h : updateTransactionStatus env walletAddress txHash status blockNumber chainTxHash s
      = .ok s₂) :
    updateTransactionStatus env walletAddress txHash status blockNumber chainTxHash s₂
      = .ok s₂ := by
  unfold updateTransactionStatus at h ⊢
  obtain ⟨w, hw, h⟩ := withOk_ok h
  obtain ⟨th, hth, h⟩ := withOk_ok h
  obtain ⟨ct, hct, h⟩ := withOk_ok h
  rw [hw, withOk, hth, withOk, hct, withOk]
  simp only [Except.ok.injEq] at h
  subst h
  refine congrArg (fun t => Except.ok { s with transactions := t })
    (updateWhere_const_idem (fun r : TxRow => r.walletAddress == w && r.txHash == th)
      (fun r =>
        if status = .executed then
          { r with
            status := status
            executedAtBlock := some blockNumber
            executedAtTx := some ct }
        else
          { r with
            status := status
            cancelledAtBlock := some blockNumber
            cancelledAtTx := some ct })
      (fun r hr => ?_) s.transactions)
  by_cases hs : status = TxStatus.executed
  · simp only [if_pos hs]
    exact ⟨hr, trivial⟩
  · simp only [if_neg hs]
    exact ⟨hr, trivial⟩

theorem addConfirmation_idem (env : Env) (walletAddress txHash ownerAddress : Str)
    (confirmedAtBlock : Int) (confirmedAtTx : Str) (s s₂ : Store)
    (h : addConfirmation env walletAddress txHash ownerAddress confirmedAtBlock
      confirmedAtTx s = .ok s₂) :
    addConfirmation env walletAddress txHash ownerAddress confirmedAtBlock
      confirmedAtTx s₂ = .ok s₂ := by
  unfold addConfirmation at h ⊢
  obtain ⟨w, hw, h⟩ := withOk_ok h
  obtain ⟨o, ho, h⟩ := withOk_ok h
  obtain ⟨th, hth, h⟩ := withOk_ok h
  obtain ⟨ctx, hctx, h⟩ := withOk_ok h
  rw [hw, withOk, ho, withOk, hth, withOk, hctx, withOk]
  by_cases hc : s.confirmations.any
      (confConflict ⟨w, th, o, confirmedAtBlock, ctx, true, none, none⟩) = true
  · rw [if_pos hc] at h
    simp only [Except.ok.injEq] at h
    subst h
    rw [if_pos hc]
  · rw [if_neg hc] at h
    simp only [Except.ok.injEq] at h
    subst h
    dsimp only
    rw [if_pos (show (s.confirmations ++
        [(⟨w, th, o, confirmedAtBlock, ctx, true, none, none⟩ : ConfRow)]).any
        (confConflict ⟨w, th, o, confirmedAtBlock, ctx, true, none, none⟩) = true from
      List.any_eq_true.mpr ⟨_, by simp, confConflict_refl _⟩)]

theorem revokeConfirmation_idem (env : Env) (walletAddress txHash ownerAddress : Str)
    (revokedAtBlock : Int) (revokedAtTx : Str) (s s₂ : Store)
    (h : revokeConfirmation env walletAddress txHash ownerAddress revokedAtBlock
      revokedAtTx s = .ok s₂) :
    revokeConfirmation env walletAddress txHash ownerAddress revokedAtBlock
      revokedAtTx s₂ = .ok s₂ := by
  unfold revokeConfirmation at h ⊢
  obtain ⟨w, hw, h⟩ := withOk_ok h
  obtain ⟨o, ho, h⟩ := withOk_ok h
  obtain ⟨th, hth, h⟩ := withOk_ok h
  obtain ⟨rtx, hrtx, h⟩ := withOk_ok h
  rw [hw, withOk, ho, withOk, hth, withOk, hrtx, withOk]
  simp only [Except.ok.injEq] at h
  subst h
  have hclear := updateWhere_clears
    (fun r : ConfRow => r.walletAddress == w && r.txHash == th &&
      r.ownerAddress == o && r.isActive)
    (fun r => { r with
      isActive := false
      revokedAtBlock := some revokedAtBlock
      revokedAtTx := some rtx })
    (fun r _ => by simp) s.confirmations
  have hidem := updateWhere_deact_idem
    (fun r : ConfRow => r.walletAddress == w && r.txHash == th &&
      r.ownerAddress == o && r.isActive)
    (fun r => { r with
      isActive := false
      revokedAtBlock := some revokedAtBlock
      revokedAtTx := some rtx })
    (fun r _ => by simp) s.confirmations
  dsimp only
  rw [if_neg (by rw [hclear]; exact Bool.false_ne_true)]
  rw [hidem]

theorem upsertRecovery_idem (env : Env) (walletAddress recoveryHash : Str)
    (newOwners : List Str) (newThreshold : Int) (initiatorAddress : Str)
    (approvalCount requiredThreshold executionTime : Int) (status : TxStatus)
    (initiatedAtBlock : Int) (initiatedAtTx : Str) (executedAtBlock : Option Int)
    (executedAtTx : Option Str) (cancelledAtBlock : Option Int)
    (cancelledAtTx : Option Str) (s s₂ : Store)
    (h : upsertRecovery env walletAddress recoveryHash newOwners newThreshold
      initiatorAddress approvalCount requiredThreshold executionTime status
      initiatedAtBlock initiatedAtTx executedAtBlock executedAtTx cancelledAtBlock
      cancelledAtTx s = .ok s₂) :
    upsertRecovery env walletAddress recoveryHash newOwners newThreshold
      initiatorAddress approvalCount requiredThreshold executionTime status
      initiatedAtBlock initiatedAtTx executedAtBlock executedAtTx cancelledAtBlock
      cancelledAtTx s₂ = .ok s₂ := by
  unfold upsertRecovery at h ⊢
  obtain ⟨w, hw, h⟩ := withOk_ok h
  obtain ⟨ia, hia, h⟩ := withOk_ok h
  obtain ⟨rh, hrh, h⟩ := withOk_ok h
  obtain ⟨itx, hitx, h⟩ := withOk_ok h
  obtain ⟨owners, how, h⟩ := onOk_ok h
  obtain ⟨et, het, h⟩ := onOk_ok h
  obtain ⟨ct, hct, h⟩ := onOk_ok h
  rw [hw, withOk, hia, withOk, hrh, withOk, hitx, withOk, how, onOk, het, onOk,
    hct, onOk]
  simp only [Except.ok.injEq] at h
  subst h
  exact congrArg (fun t => Except.ok { s with recoveries := t })
    (upsertRows_idem
      (fun row r => row.walletAddress == r.walletAddress && row.recoveryHash == r.recoveryHash)
      (fun row _ => row)
      ⟨w, rh, owners, newThreshold, ia, approvalCount, requiredThreshold,
        executionTime, status, initiatedAtBlock, itx, executedAtBlock, et,
        cancelledAtBlock, ct⟩
      (by simp) (fun r _ => by simp) (fun r => rfl) rfl s.recoveries)

theorem addRecoveryApproval_idem (env : Env)
    (walletAddress recoveryHash guardianAddress : Str) (approvedAtBlock : Int)
    (approvedAtTx : Str) (s s₂ : Store)
    (h : addRecoveryApproval env walletAddress recoveryHash guardianAddress
      approvedAtBlock approvedAtTx s = .ok s₂) :
    addRecoveryApproval env walletAddress recoveryHash guardianAddress
      approvedAtBlock approvedAtTx s₂ = .ok s₂ := by
  unfold addRecoveryApproval at h ⊢
  obtain ⟨w, hw, h⟩ := withOk_ok h
  obtain ⟨g, hg, h⟩ := withOk_ok h
  obtain ⟨rh, hrh, h⟩ := withOk_ok h
  obtain ⟨atx, hatx, h⟩ := withOk_ok h
  rw [hw, withOk, hg, withOk, hrh, withOk, hatx, withOk]
  by_cases hc : s.recoveryApprovals.any
      (approvalConflict ⟨w, rh, g, approvedAtBlock, atx, true, none, none⟩) = true
  · rw [if_pos hc] at h
    simp only [Except.ok.injEq] at h
    subst h
    rw [if_pos hc]
  · rw [if_neg hc] at h
    simp only [Except.ok.injEq] at h
    subst h
    dsimp only
    rw [if_pos (show (s.recoveryApprovals ++
        [(⟨w, rh, g, approvedAtBlock, atx, true, none, none⟩ : ApprovalRow)]).any
        (approvalConflict ⟨w, rh, g, approvedAtBlock, atx, true, none, none⟩) = true from
      List.any_eq_true.mpr ⟨_, by simp, approvalConflict_refl _⟩)]

theorem revokeRecoveryApproval_idem (env : Env)
    (walletAddress recoveryHash guardianAddress : Str) (revokedAtBlock : Int)
    (revokedAtTx : Str) (s s₂ : Store)
    (h : revokeRecoveryApproval env walletAddress recoveryHash guardianAddress
      revokedAtBlock revokedAtTx s = .ok s₂) :
    revokeRecoveryApproval env walletAddress recoveryHash guardianAddress
      revokedAtBlock revokedAtTx s₂ = .ok s₂ := by
  unfold revokeRecoveryApproval at h ⊢
  obtain ⟨w, hw, h⟩ := withOk_ok h
  obtain ⟨g, hg, h⟩ := withOk_ok h
  obtain ⟨rh, hrh, h⟩ := withOk_ok h
  obtain ⟨rtx, hrtx, h⟩ := withOk_ok h
  rw [hw, withOk, hg, withOk, hrh, withOk, hrtx, withOk]
  simp only [Except.ok.injEq] at h
  subst h
  have hclear := updateWhere_clears
    (fun r : ApprovalRow => r.walletAddress == w && r.recoveryHash == rh &&
      r.guardianAddress == g && r.isActive)
    (fun r => { r with
      isActive := false
      revokedAtBlock := some revokedAtBlock
      revokedAtTx := some rtx })
    (fun r _ => by simp) s.recoveryApprovals
  have hidem := updateWhere_deact_idem
    (fun r : ApprovalRow => r.walletAddress == w && r.recoveryHash == rh &&
      r.guardianAddress == g && r.isActive)
    (fun r => { r with
      isActive := false
      revokedAtBlock := some revokedAtBlock
      revokedAtTx := some rtx })
    (fun r _ => by simp) s.recoveryApprovals
  dsimp only
  rw [if_neg (by rw [hclear]; exact Bool.false_ne_true)]
  rw [hidem]

theorem updateRecoveryStatus_idem (env : Env) (walletAddress recoveryHash : Str)
    (status : TxStatus) (blockNumber : Int) (txHash : Str) (s s₂ : Store)
    (h : updateRecoveryStatus env walletAddress recoveryHash status blockNumber txHash s
      = .ok s₂) :
    updateRecoveryStatus env walletAddress recoveryHash status blockNumber txHash s₂
      = .ok s₂ := by
  unfold updateRecoveryStatus at h ⊢
  obtain ⟨w, hw, h⟩ := withOk_ok h
  obtain ⟨rh, hrh, h⟩ := withOk_ok h
  obtain ⟨th, hth, h⟩ := withOk_ok h
  rw [hw, withOk, hrh, withOk, hth, withOk]
  simp only [Except.ok.injEq] at h
  subst h
  refine congrArg (fun t => Except.ok { s with recoveries := t })
    (updateWhere_const_idem
      (fun r : RecoveryRow => r.walletAddress == w && r.recoveryHash == rh)
      (fun r =>
        if status = .executed then
          { r with
            status := status
            executedAtBlock := some blockNumber
            executedAtTx := some th }
        else
          { r with
            status := status
            cancelledAtBlock := some blockNumber
            cancelledAtTx := some th })
      (fun r hr => ?_) s.recoveries)
  by_cases hs : status = TxStatus.executed
  · simp only [if_pos hs]
    exact ⟨hr, trivial⟩
  · simp only [if_neg hs]
    exact ⟨hr, trivial⟩

theorem addOwnersBatch_wallets (env : Env) (owners : List OwnerInput) {s s₂ : Store}
    (h : addOwnersBatch env owners s = .ok s₂) : s₂.wallets = s.wallets := by
  unfold addOwnersBatch at h
  by_cases he : owners.isEmpty
  · rw [if_pos he] at h
    simp only [Except.ok.injEq] at h
    subst h
    rfl
  · rw [if_neg he] at h
    obtain ⟨records, hm, h⟩ := onOk_ok h
    simp only [Except.ok.injEq] at h
    subst h
    rfl

/-- Re-running `upsertWallet` against any store whose `wallets` table
already carries its result is a no-op. -/
theorem upsertWallet_stable (env : Env) (address : Str) (name : Option Str)
    (threshold ownerCount createdAtBlock : Int) (createdAtTx : Str) {s s1 : Store}
    (sx : Store)
    (h : upsertWallet env address name threshold ownerCount createdAtBlock createdAtTx s
      = .ok s1)
    (hx : sx.wallets = s1.wallets) :
    upsertWallet env address name threshold ownerCount createdAtBlock createdAtTx sx
      = .ok sx := by
  unfold upsertWallet at h ⊢
  obtain ⟨a, ha, h⟩ := withOk_ok h
  obtain ⟨c, hc, h⟩ := withOk_ok h
  rw [ha, withOk, hc, withOk]
  simp only [Except.ok.injEq] at h
  subst h
  have hW : upsertRows (fun row r => row.address == r.address) (fun row _ => row)
      (⟨a, name, threshold, ownerCount, createdAtBlock, c⟩ : WalletRow) sx.wallets
      = sx.wallets := by
    rw [hx]
    exact upsertRows_idem (fun row r => row.address == r.address) (fun row _ => row)
      ⟨a, name, threshold, ownerCount, createdAtBlock, c⟩ (by simp)
      (fun r _ => by simp) (fun r => rfl) rfl s.wallets
  rw [hW]

theorem handleWalletCreated_idem (env : Env) (blockNumber : Int)
    (transactionHash wallet : Str) (owners : List Str) (threshold : Int) (s s₂ : Store)
    (h : handleWalletCreated env blockNumber transactionHash wallet owners threshold s
      = .ok s₂) :
    handleWalletCreated env blockNumber transactionHash wallet owners threshold s₂
      = .ok s₂ := by
  unfold handleWalletCreated at h ⊢
  obtain ⟨s1, hu, hb⟩ := onOk_ok h
  rw [upsertWallet_stable env wallet none threshold (owners.length : Int) blockNumber
    transactionHash s₂ hu (addOwnersBatch_wallets env _ hb), onOk]
  exact addOwnersBatch_idem env _ s1 s₂ hb

theorem handleWalletRegistered_idem (env : Env) (blockNumber : Int)
    (transactionHash wallet : Str) (s s₂ : Store)
    (h : handleWalletRegistered env blockNumber transactionHash wallet s = .ok s₂) :
    handleWalletRegistered env blockNumber transactionHash wallet s₂ = .ok s₂ := by
  unfold handleWalletRegistered at h ⊢
  obtain ⟨ownersHex, hgo, h⟩ := onSome_ok h
  obtain ⟨thresholdHex, hth, h⟩ := onSome_ok h
  obtain ⟨ownerAddresses, hdec, h⟩ := onOk_ok h
  obtain ⟨thresholdValue, hp, h⟩ := onSome_ok h
  obtain ⟨s1, hu, hb⟩ := onOk_ok h
  rw [hgo, onSome, hth, onSome, hdec, onOk, hp, onSome]
  rw [upsertWallet_stable env wallet none thresholdValue (ownerAddresses.length : Int)
    blockNumber transactionHash s₂ hu (addOwnersBatch_wallets env _ hb), onOk]
  exact addOwnersBatch_idem env _ s1 s₂ hb

theorem handleTransactionProposed_idem (env : Env) (address : Str) (blockNumber : Int)
    (transactionHash txHash proposer toAddress value data : Str) (s s₂ : Store)
    (h : handleTransactionProposed env address blockNumber transactionHash txHash
      proposer toAddress value data s = .ok s₂) :
    handleTransactionProposed env address blockNumber transactionHash txHash
      proposer toAddress value data s₂ = .ok s₂ := by
  unfold handleTransactionProposed at h ⊢
  obtain ⟨decoded, hd, h⟩ := onOk_ok h
  rw [hd, onOk]
  exact upsertTransaction_idem env address txHash toAddress value _ _ _ _ _ _ _ _
    none none none none s s₂ h

theorem upsertRecovery_configs (env : Env) (walletAddress recoveryHash : Str)
    (newOwners : List Str) (newThreshold : Int) (initiatorAddress : Str)
    (approvalCount requiredThreshold executionTime : Int) (status : TxStatus)
    (initiatedAtBlock : Int) (initiatedAtTx : Str) (executedAtBlock : Option Int)
    (executedAtTx : Option Str) (cancelledAtBlock : Option Int)
    (cancelledAtTx : Option Str) {s s₂ : Store}
    (h : upsertRecovery env walletAddress recoveryHash newOwners newThreshold
      initiatorAddress approvalCount requiredThreshold executionTime status
      initiatedAtBlock initiatedAtTx executedAtBlock executedAtTx cancelledAtBlock
      cancelledAtTx s = .ok s₂) : s₂.recoveryConfigs = s.recoveryConfigs := by
  unfold upsertRecovery at h
  obtain ⟨w, hw, h⟩ := withOk_ok h
  obtain ⟨ia, hia, h⟩ := withOk_ok h
  obtain ⟨rh, hrh, h⟩ := withOk_ok h
  obtain ⟨itx, hitx, h⟩ := withOk_ok h
  obtain ⟨ownersN, how, h⟩ := onOk_ok h
  obtain ⟨et, het, h⟩ := onOk_ok h
  obtain ⟨ct, hct, h⟩ := onOk_ok h
  simp only [Except.ok.injEq] at h
  subst h
  rfl

theorem getRecoveryConfig_congr (env : Env) (walletAddress : Str) {s sx : Store}
    (hx : sx.recoveryConfigs = s.recoveryConfigs) :
    getRecoveryConfig env walletAddress sx = getRecoveryConfig env walletAddress s := by
  unfold getRecoveryConfig
  cases hv : vAddr env walletAddress with
  | ok a => simp only [withOk, hx]
  | error e => simp only [withOk]

theorem handleRecoveryInitiated_idem (env : Env) (blockNumber : Int)
    (transactionHash wallet recoveryHash : Str) (newOwners : List Str)
    (newThreshold : Int) (initiator : Str) (s s₂ : Store)
    (h : handleRecoveryInitiated env blockNumber transactionHash wallet recoveryHash
      newOwners newThreshold initiator s = .ok s₂) :
    handleRecoveryInitiated env blockNumber transactionHash wallet recoveryHash
      newOwners newThreshold initiator s₂ = .ok s₂ := by
  unfold handleRecoveryInitiated at h ⊢
  obtain ⟨cfg, hg, h⟩ := onOk_ok h
  rw [getRecoveryConfig_congr env wallet
    (upsertRecovery_configs env wallet recoveryHash newOwners newThreshold initiator
      0 _ _ .pending blockNumber transactionHash none none none none h), hg, onOk]
  exact upsertRecovery_idem env wallet recoveryHash newOwners newThreshold initiator
    0 _ _ .pending blockNumber transactionHash none none none none s s₂ h

/-- The event kinds whose handler application is idempotent; the five
excluded kinds double-adjust state on replay (owner add/remove double-move
`ownerCount`, a recovery re-setup leaves the guardian set inactive, and the
two module-transaction kinds append a duplicate history row). -/
def replaySafe : Event → Bool
  | .ownerAdded _ _ _ _ => false
  | .ownerRemoved _ _ _ _ => false
  | .recoverySetup _ _ _ _ _ _ _ => false
  | .dailyLimitTransactionExecuted _ _ _ _ _ _ _ => false
  | .whitelistTransactionExecuted _ _ _ _ _ _ => false
  | _ => true

-- ============================================
-- C3
-- ============================================

/-- C3 (amended): for every replay-safe event kind — all kinds except
`OwnerAdded`, `OwnerRemoved`, `RecoverySetup`,
`DailyLimitTransactionExecuted` and `WhitelistTransactionExecuted` —
applying the handler twice in succession from any store state yields the
same state as applying it once: a successful application is a fixpoint of
a second application. -/
theorem handleEvent_idem_of_replaySafe (env : Env) (e : Event) (s s₂ : Store)
    (hsafe : replaySafe e = true) (h : handleEvent env e s = .ok s₂) :
    handleEvent env e s₂ = .ok s₂ := by
  cases e with
  | walletCreated a bn th w owners threshold =>
    exact handleWalletCreated_idem env bn th w owners threshold s s₂ h
  | walletRegistered a bn th w =>
    exact handleWalletRegistered_idem env bn th w s s₂ h
  | transactionProposed a bn th txh proposer toA value data =>
    exact handleTransactionProposed_idem env a bn th txh proposer toA value data s s₂ h
  | transactionApproved a bn th txh approver =>
    exact addConfirmation_idem env a txh approver bn th s s₂ h
  | approvalRevoked a bn th txh owner =>
    exact revokeConfirmation_idem env a txh owner bn th s s₂ h
  | transactionExecuted a bn th txh executor =>
    exact updateTransactionStatus_idem env a txh .executed bn th s s₂ h
  | transactionCancelled a bn th txh canceller =>
    exact updateTransactionStatus_idem env a txh .cancelled bn th s s₂ h
  | ownerAdded a bn th owner => exact absurd hsafe (by simp [replaySafe])
  | ownerRemoved a bn th owner => exact absurd hsafe (by simp [replaySafe])
  | thresholdChanged a bn th threshold =>
    exact updateWalletThreshold_idem env a threshold s s₂ h
  | moduleEnabled a bn th m => exact addModule_idem env a m bn th s s₂ h
  | moduleDisabled a bn th m => exact disableModule_idem env a m bn th s s₂ h
  | received a bn th sender amount => exact addDeposit_idem env a sender amount bn th s s₂ h
  | recoverySetup a bn th w gs threshold period => exact absurd hsafe (by simp [replaySafe])
  | recoveryInitiated a bn th w rh owners nt initiator =>
    exact handleRecoveryInitiated_idem env bn th w rh owners nt initiator s s₂ h
  | recoveryApproved a bn th w rh g =>
    exact addRecoveryApproval_idem env w rh g bn th s s₂ h
  | recoveryApprovalRevoked a bn th w rh g =>
    exact revokeRecoveryApproval_idem env w rh g bn th s s₂ h
  | recoveryExecuted a bn th w rh =>
    exact updateRecoveryStatus_idem env w rh .executed bn th s s₂ h
  | recoveryCancelled a bn th w rh =>
    exact updateRecoveryStatus_idem env w rh .cancelled bn th s s₂ h
  | dailyLimitSet a bn th w limit =>
    exact upsertDailyLimit_idem env w limit (str "0") env.todayStr s s₂ h
  | dailyLimitReset a bn th w => exact resetDailyLimit_idem env w s s₂ h
  | dailyLimitTransactionExecuted a bn th w toA value rem =>
    exact absurd hsafe (by simp [replaySafe])
  | addressWhitelisted a bn th w addr limit =>
    exact addWhitelistEntry_idem env w addr limit bn th s s₂ h
  | addressRemovedFromWhitelist a bn th w addr =>
    exact removeWhitelistEntry_idem env w addr bn th s s₂ h
  | whitelistTransactionExecuted a bn th w toA value =>
    exact absurd hsafe (by simp [replaySafe])

/-- A concrete environment whose external collaborators all answer: the
address check accepts, the block-timestamp RPC reports 1700000000, and the
calldata decoder has an empty selector table. -/
def envOk : Env :=
  { quaiCheck := fun _ => true
    getOwnersResult := fun _ => none
    thresholdResult := fun _ => none
    blockTimestampOf := fun _ => some 1700000000
    nowSeconds := 1800000000
    todayStr := str "2026-10-12"
    decodeCtx :=
      { selectors := []
        dailyLimitModule := none
        whitelistModule := none
        socialRecoveryModule := none
        parseArgs := fun _ _ => none
        bigIntOf := fun _ => some 0 }
    bigIntOf := fun _ => some 0
    decString := fun _ => str "0" }

/-- A lowercase wallet address used by the concrete scenarios. -/
def addrA : Str := str "0xaaaaaaaaaaaaaaaaaaaaaaaaaaaaaaaaaaaaaaaa"

/-- A lowercase owner address. -/
def ownerB : Str := str "0xbbbbbbbbbbbbbbbbbbbbbbbbbbbbbbbbbbbbbbbb"

/-- A chain transaction hash. -/
def hashT : Str :=
  str "0x1111111111111111111111111111111111111111111111111111111111111111"

/-- A recovery hash. -/
def hashR : Str :=
  str "0x2222222222222222222222222222222222222222222222222222222222222222"

/-- The empty store. -/
def emptyStore : Store :=
  ⟨[], [], [], [], [], [], [], [], [], [], [], [], []⟩

/-- A store holding one wallet with `ownerCount = 1`. -/
def cexStore0 : Store :=
  { emptyStore with wallets := [⟨addrA, none, 1, 1, 1, hashT⟩] }

/-- The store after one application of the `OwnerAdded` handler. -/
def cexStore1 : Store :=
  { emptyStore with
    wallets := [⟨addrA, none, 1, 2, 1, hashT⟩]
    walletOwners := [⟨addrA, ownerB, 5, hashT, true, none, none⟩] }

/-- The store after a second application: the duplicate owner insert is
swallowed, but the server-side increment fires again. -/
def cexStore2 : Store :=
  { emptyStore with
    wallets := [⟨addrA, none, 1, 3, 1, hashT⟩]
    walletOwners := [⟨addrA, ownerB, 5, hashT, true, none, none⟩] }

/-- C3 counterexample: applying the `OwnerAdded` handler twice from
`cexStore0` is NOT the same as applying it once — the duplicate owner-row
insert is swallowed, but `increment_owner_count` runs unconditionally, so
`Wallet.ownerCount` becomes 3 instead of 2. -/
theorem handleEvent_ownerAdded_not_idempotent :
    handleEvent envOk (.ownerAdded addrA 5 hashT ownerB) cexStore0 = .ok cexStore1 ∧
    handleEvent envOk (.ownerAdded addrA 5 hashT ownerB) cexStore1 = .ok cexStore2 ∧
    cexStore2 ≠ cexStore1 := by
  refine ⟨rfl, rfl, by decide⟩

/-- The store after applying `ThresholdChanged(3)` to `cexStore0`. -/
def wStore1 : Store :=
  { emptyStore with wallets := [⟨addrA, none, 3, 1, 1, hashT⟩] }

/-- C3 witness: the replay-safe kind `ThresholdChanged` applied at a
concrete input is a fixpoint of a second application. -/
theorem handleEvent_idem_witness :
    replaySafe (.thresholdChanged addrA 5 hashT 3) = true ∧
    handleEvent envOk (.thresholdChanged addrA 5 hashT 3) wStore1 = .ok wStore1 :=
  ⟨by decide,
    handleEvent_idem_of_replaySafe envOk (.thresholdChanged addrA 5 hashT 3)
      cexStore0 wStore1 (by decide) rfl⟩

-- ============================================
-- C10
-- ============================================

/-- C10: handling `RecoveryInitiated` for a wallet with no stored recovery
config row does not fail: with all boundary validations passing, the
handler persists exactly the recovery row with status `pending`,
`approvalCount = 0`, `requiredThreshold` defaulted to 1, and — the
recovery period being treated as 0 — `executionTime` equal to the
initiation block's timestamp (or the wall clock when the RPC read
fails, which is what `executionTimeBase` evaluates to). -/
theorem handleRecoveryInitiated_no_config (env : Env) (blockNumber : Int)
    (transactionHash wallet recoveryHash : Str) (newOwners : List Str)
    (newThreshold : Int) (initiator : Str) (s : Store) (w ia rh itx : Str)
    (ons : List Str)
    (hcfg : getRecoveryConfig env wallet s = .ok none)
    (hw : vAddr env wallet = .ok w) (hia : vAddr env initiator = .ok ia)
    (hrh : vB32 recoveryHash = .ok rh) (hitx : vB32 transactionHash = .ok itx)
    (hons : mapExcept (vAddr env) newOwners = .ok ons) :
    handleRecoveryInitiated env blockNumber transactionHash wallet recoveryHash
      newOwners newThreshold initiator s
    = .ok { s with recoveries :=
        (upsertRows
          (fun row r => row.walletAddress == r.walletAddress &&
            row.recoveryHash == r.recoveryHash)
          (fun row _ => row)
          ⟨w, rh, ons, newThreshold, ia, 0, 1, executionTimeBase env blockNumber,
            .pending, blockNumber, itx, none, none, none, none⟩
          s.recoveries) } := by
  unfold handleRecoveryInitiated
  rw [hcfg, onOk]
  unfold upsertRecovery
  rw [hw, withOk, hia, withOk, hrh, withOk, hitx, withOk, hons, onOk]
  simp only [vB32opt, onOk, requiredThresholdOf, recoveryPeriodOf, Int.add_zero]

/-- C10 witness: the theorem evaluated at a concrete wallet with an empty
store — the persisted row carries status pending, approvalCount 0,
requiredThreshold 1, and executionTime 1700000000, the block timestamp. -/
theorem handleRecoveryInitiated_no_config_witness :
    handleRecoveryInitiated envOk 200 hashT addrA hashR [ownerB] 2 ownerB emptyStore
    = .ok { emptyStore with recoveries :=
        (upsertRows
          (fun row r => row.walletAddress == r.walletAddress &&
            row.recoveryHash == r.recoveryHash)
          (fun row _ => row)
          ⟨addrA, hashR, [ownerB], 2, ownerB, 0, 1, executionTimeBase envOk 200,
            .pending, 200, hashT, none, none, none, none⟩
          emptyStore.recoveries) } :=
  handleRecoveryInitiated_no_config envOk 200 hashT addrA hashR [ownerB] 2 ownerB
    emptyStore addrA ownerB hashR hashT [ownerB] rfl rfl rfl rfl rfl rfl

end MultisigIndexer
